import Mathlib

/-!
Verification of the ENEM question-compilation engine.

This file gives a shallow embedding of the core of the repository:

* `config_docx.py` — the inline-markup micro-parser (`ParagraphFormatter`:
  the combined regex over `PATTERNS`, `_aplicar_formatacao` and
  `_processar_match`), modelled over `List Char`;
* `main.py` — the filtering pipeline of `ProcessadorQuestoes`
  (`carregar_questoes`, `_aplicar_filtros`, `_obter_provas_escolhidas`,
  `_filtrar_por_habilidade`, `_filtrar_por_posicao`,
  `_filtrar_por_dificuldade`, `_aplicar_filtros_globais`) and the
  assembly loop `AplicacaoENEM._processar_questoes`;
* `ListaProva.py` — the `provas_regulares` exam-code index;
* `entradas.py` — the `FiltrosQuestoes.validar` input validation.

Theorems about these definitions follow after all definitions.
-/

namespace ENEM

/-! ### Markup parser (`config_docx.py`, class `ParagraphFormatter`)

`PATTERNS` is a dict, in insertion order: bold `\*\*(?:.*?)\*\*`,
subscript `__(?:.*?)__`, italic `_(?:.*?)_`, superscript `\^(?:.*?)\^`.
`_compile_patterns` wraps each in a group and joins them with `|`, so a
single combined scan tries the four alternatives in that order at each
position, leftmost match first, with lazy (shortest) inner content, and
`.` not matching a newline. -/

/-- The style a text run carries.  `_processar_match` attaches at most one
style per matched span; text outside any span is `plain`. -/
inductive Fmt
  | plain
  | bold
  | subscript
  | italic
  | superscript
deriving DecidableEq, Repr

/-- One text run produced for a paragraph: the run's text and its style. -/
structure Run where
  text : List Char
  fmt : Fmt
deriving DecidableEq, Repr

/-- The four delimiters, in the alternation order of the combined pattern
compiled by `_compile_patterns` (the insertion order of `PATTERNS`). -/
def patternDelims : List (Fmt × List Char) :=
  [(Fmt.bold, ['*', '*']), (Fmt.subscript, ['_', '_']),
   (Fmt.italic, ['_']), (Fmt.superscript, ['^'])]

/-- Lazy search for the closing delimiter `d`: returns the shortest inner
text (which, like regex `.`, may not contain a newline) together with the
input remaining after the closing delimiter. -/
def findClose (d : List Char) : List Char → Option (List Char × List Char)
  | [] => none
  | c :: cs =>
    if d.isPrefixOf (c :: cs) then some ([], (c :: cs).drop d.length)
    else if c = '\n' then none
    else (findClose d cs).map (fun p => (c :: p.1, p.2))

/-- Try one delimiter `d` at the current position: the pattern requires the
opening delimiter, a lazy inner text, and the closing delimiter.  Returns
the full matched span (delimiters included) and the rest of the input. -/
def tryPattern (d : List Char) (cs : List Char) : Option (List Char × List Char) :=
  if d.isPrefixOf cs then
    match findClose d (cs.drop d.length) with
    | some (inner, rest) => some (d ++ inner ++ d, rest)
    | none => none
  else none

/-- Try the alternatives of the combined pattern in order at the current
position (first matching alternative wins). -/
def firstPattern : List (Fmt × List Char) → List Char → Option (Fmt × List Char × List Char)
  | [], _ => none
  | (f, d) :: ps, cs =>
    match tryPattern d cs with
    | some (tok, rest) => some (f, tok, rest)
    | none => firstPattern ps cs

/-- The combined pattern of `_compile_patterns`, applied at one position. -/
def matchAt (cs : List Char) : Option (Fmt × List Char × List Char) :=
  firstPattern patternDelims cs

/-- `_processar_match` strips the delimiters of a matched span with
`re.sub r"(^\*\*|\*\*$|^__|__$|^_|_$|^\^|\^$)" ""`: one scan removes the
anchored opening delimiter at position 0 (first matching alternative), ... -/
def stripStart (cs : List Char) : List Char :=
  if List.isPrefixOf ['*', '*'] cs then cs.drop 2
  else if List.isPrefixOf ['_', '_'] cs then cs.drop 2
  else if List.isPrefixOf ['_'] cs then cs.drop 1
  else if List.isPrefixOf ['^'] cs then cs.drop 1
  else cs

/-- ... and then the leftmost end-anchored delimiter occurrence (the
two-character delimiters start one position earlier, so they win). -/
def stripEnd (cs : List Char) : List Char :=
  if List.isSuffixOf ['*', '*'] cs then cs.dropLast.dropLast
  else if List.isSuffixOf ['_', '_'] cs then cs.dropLast.dropLast
  else if List.isSuffixOf ['_'] cs then cs.dropLast
  else if List.isSuffixOf ['^'] cs then cs.dropLast
  else cs

/-- Delimiter stripping of `_processar_match`. -/
def stripDelims (cs : List Char) : List Char := stripEnd (stripStart cs)

theorem findClose_rest_lt {d : List Char} (hd : d ≠ []) :
    ∀ {cs inner rest : List Char}, findClose d cs = some (inner, rest) →
      rest.length < cs.length := by
  intro cs
  induction cs with
  | nil => intro inner rest h; simp [findClose] at h
  | cons c cs ih =>
    intro inner rest h
    rw [findClose] at h
    by_cases hp : (List.isPrefixOf d (c :: cs) : Bool)
    · rw [if_pos hp] at h
      simp only [Option.some.injEq, Prod.mk.injEq] at h
      have hlen : 1 ≤ d.length := by
        cases d with
        | nil => exact absurd rfl hd
        | cons a as => simp
      have hr : rest = (c :: cs).drop d.length := h.2.symm
      subst hr
      calc ((c :: cs).drop d.length).length = (c :: cs).length - d.length :=
            List.length_drop _ _
        _ < (c :: cs).length := by
            exact Nat.sub_lt (Nat.succ_pos _) (Nat.lt_of_lt_of_le Nat.zero_lt_one hlen)
    · rw [if_neg hp] at h
      by_cases hn : c = '\n'
      · rw [if_pos hn] at h; exact absurd h (by simp)
      · rw [if_neg hn] at h
        match hrec : findClose d cs with
        | none => rw [hrec] at h; exact absurd h (by simp)
        | some (i0, r0) =>
          rw [hrec] at h
          simp only [Option.map_some', Option.some.injEq, Prod.mk.injEq] at h
          have hr : rest = r0 := h.2.symm
          subst hr
          exact Nat.lt_trans (ih hrec) (by simp)

theorem tryPattern_rest_lt {d cs tok rest : List Char} (hd : d ≠ [])
    (h : tryPattern d cs = some (tok, rest)) : rest.length < cs.length := by
  rw [tryPattern] at h
  by_cases hp : (List.isPrefixOf d cs : Bool)
  · rw [if_pos hp] at h
    match hfc : findClose d (cs.drop d.length) with
    | none => rw [hfc] at h; exact absurd h (by simp)
    | some (i0, r0) =>
      rw [hfc] at h
      obtain ⟨h1, h2⟩ := (Prod.mk.injEq _ _ _ _).mp (Option.some.inj h)
      subst h2
      exact Nat.lt_of_lt_of_le (findClose_rest_lt hd hfc) (by simp)
  · rw [if_neg hp] at h; exact absurd h (by simp)

theorem firstPattern_rest_lt :
    ∀ {ps : List (Fmt × List Char)}, (∀ p ∈ ps, p.2 ≠ []) →
    ∀ {cs : List Char} {f : Fmt} {tok rest : List Char},
      firstPattern ps cs = some (f, tok, rest) → rest.length < cs.length := by
  intro ps
  induction ps with
  | nil => intro _ cs f tok rest h; simp [firstPattern] at h
  | cons p ps ih =>
    intro hps cs f tok rest h
    obtain ⟨pf, pd⟩ := p
    rw [firstPattern] at h
    match htp : tryPattern pd cs with
    | some (tok0, rest0) =>
      rw [htp] at h
      obtain ⟨h1, h2⟩ := (Prod.mk.injEq _ _ _ _).mp (Option.some.inj h)
      obtain ⟨h3, h4⟩ := (Prod.mk.injEq _ _ _ _).mp h2
      subst h4
      exact tryPattern_rest_lt (hps ⟨pf, pd⟩ (by simp)) htp
    | none =>
      rw [htp] at h
      exact ih (fun q hq => hps q (List.mem_cons_of_mem _ hq)) h

theorem matchAt_rest_lt {cs : List Char} {f : Fmt} {tok rest : List Char}
    (h : matchAt cs = some (f, tok, rest)) : rest.length < cs.length :=
  firstPattern_rest_lt (by intro p hp; fin_cases hp <;> simp) h

/-- The scan of `_aplicar_formatacao`: walk the text; at each position where
the combined pattern matches, first emit the pending unmatched text (if
nonempty) as a plain run, then the matched span with delimiters stripped and
its style attached; after the last match emit the remaining text (if
nonempty) as a plain run. -/
def scanAux (gap : List Char) (cs : List Char) : List Run :=
  match h : matchAt cs with
  | some (f, tok, rest) =>
    (if gap.isEmpty then [] else [⟨gap, Fmt.plain⟩]) ++
      ⟨stripDelims tok, f⟩ :: scanAux [] rest
  | none =>
    match cs with
    | [] => if gap.isEmpty then [] else [⟨gap, Fmt.plain⟩]
    | c :: rest => scanAux (gap ++ [c]) rest
termination_by cs.length
decreasing_by
  · exact matchAt_rest_lt h
  · simp

/-- `_aplicar_formatacao`: the list of styled runs produced for a text. -/
def aplicarFormatacao (texto : String) : List Run := scanAux [] texto.data

/-! ### Data model: one row of `ITENS_PROVA_CONSOLIDADO.csv` (`main.py`)

`_carregar_csv_consolidado` coerces `CO_HABILIDADE` and the `NU_PARAM_*`
columns to numbers with `errors='coerce'`, so the skill code is a nullable
number (`Option ℚ`, `none` standing for `NaN`).  The difficulty parameter
`NU_PARAM_B` is the signed real the spec describes, modelled as `ℚ`. -/

structure Row where
  ANO_PROVA : Nat
  SG_AREA : String
  CO_PROVA : Nat
  CO_POSICAO : Nat
  CO_HABILIDADE : Option ℚ
  NU_PARAM_B : ℚ
  TX_GABARITO : String
deriving DecidableEq, Repr

/-- Ascending difficulty, the key of `df.sort_values("NU_PARAM_B")`. -/
def difLE (a b : Row) : Prop := a.NU_PARAM_B ≤ b.NU_PARAM_B

instance : DecidableRel difLE := fun a b => inferInstanceAs (Decidable (_ ≤ _))

instance : IsTotal Row difLE := ⟨fun a b => le_total a.NU_PARAM_B b.NU_PARAM_B⟩

instance : IsTrans Row difLE := ⟨fun _ _ _ h1 h2 => le_trans h1 h2⟩

/-- The key of `df.sort_values(["ANO", "NU_PARAM_B"])`: ascending year,
then ascending difficulty.  (The source sorts on the `ANO` column added by
`carregar_questoes`, which holds `str(ano)` for the loop's year; within a
year's frame that year equals the row's `ANO_PROVA`, and for the 4-digit
years admitted by `provas_regulares` lexicographic string order coincides
with numeric order, so the model keys directly on `ANO_PROVA`.) -/
def anoDifLE (a b : Row) : Prop :=
  a.ANO_PROVA < b.ANO_PROVA ∨ (a.ANO_PROVA = b.ANO_PROVA ∧ a.NU_PARAM_B ≤ b.NU_PARAM_B)

instance : DecidableRel anoDifLE := fun _ _ => inferInstanceAs (Decidable (_ ∨ _))

instance : IsTotal Row anoDifLE := by
  constructor
  intro a b
  rcases Nat.lt_trichotomy a.ANO_PROVA b.ANO_PROVA with h | h | h
  · exact Or.inl (Or.inl h)
  · rcases le_total a.NU_PARAM_B b.NU_PARAM_B with h2 | h2
    · exact Or.inl (Or.inr ⟨h, h2⟩)
    · exact Or.inr (Or.inr ⟨h.symm, h2⟩)
  · exact Or.inr (Or.inl h)

instance : IsTrans Row anoDifLE := by
  constructor
  intro a b c hab hbc
  rcases hab with h1 | ⟨h1, h1'⟩
  · rcases hbc with h2 | ⟨h2, _⟩
    · exact Or.inl (Nat.lt_trans h1 h2)
    · exact Or.inl (h2 ▸ h1)
  · rcases hbc with h2 | ⟨h2, h2'⟩
    · exact Or.inl (h1 ▸ h2)
    · exact Or.inr ⟨h1.trans h2, le_trans h1' h2'⟩

/-! ### `ListaProva.py`: the `provas_regulares` exam-code index -/

/-- `provas_regulares`: year string → (subject code → exam code), as an
association list in the source's insertion order. -/
def provasRegulares : List (String × List (String × Nat)) :=
  [("2009", [("CH", 53), ("CN", 49), ("MT", 63), ("LC", 59)]),
   ("2010", [("CH", 85), ("CN", 89), ("MT", 99), ("LC", 95)]),
   ("2011", [("CH", 117), ("CN", 121), ("MT", 131), ("LC", 127)]),
   ("2012", [("CH", 137), ("CN", 141), ("MT", 151), ("LC", 147)]),
   ("2013", [("CH", 167), ("CN", 171), ("MT", 181), ("LC", 177)]),
   ("2014", [("CH", 195), ("CN", 199), ("MT", 209), ("LC", 205)]),
   ("2015", [("CH", 231), ("CN", 235), ("MT", 245), ("LC", 241)]),
   ("2016", [("CH", 295), ("CN", 291), ("MT", 303), ("LC", 299)]),
   ("2017", [("CH", 395), ("CN", 391), ("MT", 403), ("LC", 399)]),
   ("2018", [("CH", 451), ("CN", 447), ("MT", 459), ("LC", 455)]),
   ("2019", [("CH", 507), ("CN", 503), ("MT", 515), ("LC", 511)]),
   ("2020", [("CH", 567), ("CN", 597), ("MT", 587), ("LC", 577)]),
   ("2021", [("CH", 879), ("CN", 909), ("MT", 899), ("LC", 889)]),
   ("2022", [("CH", 1055), ("CN", 1085), ("MT", 1075), ("LC", 1065)]),
   ("2023", [("CH", 1191), ("CN", 1221), ("MT", 1211), ("LC", 1201)]),
   ("2024", [("CH", 1383), ("CN", 1419), ("MT", 1407), ("LC", 1395)])]

/-! ### The filter pipeline (`main.py`, class `ProcessadorQuestoes`) -/

/-- The `filtros` dict built by `AplicacaoENEM._gerar_documento`.  Python
truthiness of the optional entries is modelled by the `truthy*` helpers. -/
structure Filtros where
  posicoes : Option String
  minDif : ℚ
  maxDif : ℚ
  filtrarQuantidade : Bool
  quantidade : Option Nat
  filtrarDificuldade : Bool
  filtrarHabilidade : Bool
  habilidades : Option (List Int)
deriving DecidableEq, Repr

/-- Python truthiness of an optional string (`None` and `""` are falsy). -/
def truthyStr : Option String → Bool
  | none => false
  | some s => s ≠ ""

/-- Python truthiness of an optional number (`None` and `0` are falsy). -/
def truthyNat : Option Nat → Bool
  | none => false
  | some n => n ≠ 0

/-- Python truthiness of an optional list (`None` and `[]` are falsy). -/
def truthyList {α : Type} : Option (List α) → Bool
  | none => false
  | some l => !l.isEmpty

/-- One step of `_obter_provas_escolhidas`'s loop over the requested
subjects: append the subject's exam code, or record a warning when the
subject is absent for this year. -/
def provaStep (tbl : List (String × Nat)) (ano : String)
    (acc : List (String × Nat) × List String) (m : String) :
    List (String × Nat) × List String :=
  match tbl.lookup m with
  | some c => (acc.1 ++ [(m, c)], acc.2)
  | none => (acc.1, acc.2 ++ ["Matéria " ++ m ++ " não encontrada para o ano " ++ ano])

/-- `_obter_provas_escolhidas`: resolve the exam code of each requested
subject for one year; a missing year or missing subject yields no code and
a logged warning (the run is not aborted). -/
def obterProvasEscolhidas (ano : String) (materias : List String) :
    List (String × Nat) × List String :=
  match provasRegulares.lookup ano with
  | none => ([], ["Ano " ++ ano ++ " não encontrado em provas_regulares"])
  | some tbl => materias.foldl (provaStep tbl ano) ([], [])

/-- `_filtrar_por_habilidade`: keep rows whose (numerically coerced) skill
code is one of the requested ones; a row with missing skill code is
excluded.  Returns the surviving rows and the logged warnings. -/
def filtrarPorHabilidade (df : List Row) (habilidades : List Int) :
    List Row × List String :=
  if df = [] then (df, [])
  else
    let habFloat : List ℚ := habilidades.map (fun h => (h : ℚ))
    let dfF := df.filter (fun r =>
      match r.CO_HABILIDADE with
      | some q => decide (q ∈ habFloat)
      | none => false)
    if dfF = [] then (dfF, ["Nenhuma questão encontrada para as habilidades selecionadas"])
    else (dfF, [])

/-- Python's `str.split()` (no argument): split on runs of whitespace,
producing no empty tokens.  The first argument accumulates the current
token in reverse. -/
def splitWsAux : List Char → List Char → List (List Char)
  | cur, [] => if cur.isEmpty then [] else [cur.reverse]
  | cur, c :: cs =>
    if c.isWhitespace then
      (if cur.isEmpty then [] else [cur.reverse]) ++ splitWsAux [] cs
    else splitWsAux (c :: cur) cs

/-- Python's `t.isdigit()` on an already-stripped token (ASCII digits). -/
def pythonIsDigit (t : List Char) : Bool := !t.isEmpty && t.all Char.isDigit

/-- The base-10 value Python's `int()` gives an all-digit token. -/
def digitsVal (t : List Char) : Nat :=
  t.foldl (fun n c => n * 10 + (c.toNat - Char.toNat '0')) 0

/-- `_filtrar_por_posicao`'s parse of the position string:
`posicoes_str.split()` and keep the integer value of the digit tokens. -/
def parsePosicoes (s : String) : List Nat :=
  ((splitWsAux [] s.data).filter pythonIsDigit).map digitsVal

/-- Python's `int(s)` on a string expected to hold a plain number — `none`
models the `ValueError` raised on a malformed string.  (The year strings
the form offers are plain digit strings, for which this is exact.) -/
def pyIntParse (s : String) : Option Nat :=
  if pythonIsDigit s.data then some (digitsVal s.data) else none

/-- `[int(ano) for ano in anos]`: the whole comprehension fails as soon as
one year string fails to parse. -/
def parseAnos : List String → Option (List Nat)
  | [] => some []
  | a :: rest =>
    match pyIntParse a, parseAnos rest with
    | some n, some ns => some (n :: ns)
    | _, _ => none

/-- `drop_duplicates(subset=["CO_POSICAO"])`: keep the first row of each
position value. -/
def dropDupPos : List Row → List Nat → List Row
  | [], _ => []
  | r :: rs, seen =>
    if r.CO_POSICAO ∈ seen then dropDupPos rs seen
    else r :: dropDupPos rs (r.CO_POSICAO :: seen)

/-- The ordered-categorical key of `_filtrar_por_posicao`: a row sorts by
the index of its position in the requested list. -/
def posOrdLE (posicoes : List Nat) (a b : Row) : Prop :=
  posicoes.indexOf a.CO_POSICAO ≤ posicoes.indexOf b.CO_POSICAO

instance (posicoes : List Nat) : DecidableRel (posOrdLE posicoes) :=
  fun _ _ => inferInstanceAs (Decidable (_ ≤ _))

instance (posicoes : List Nat) : IsTotal Row (posOrdLE posicoes) :=
  ⟨fun a b => Nat.le_total _ _⟩

instance (posicoes : List Nat) : IsTrans Row (posOrdLE posicoes) :=
  ⟨fun _ _ _ h1 h2 => Nat.le_trans h1 h2⟩

/-- `_filtrar_por_posicao`: keep rows at the requested positions,
de-duplicate by position (first occurrence wins), and sort by the order of
the requested list.  `pd.Categorical(..., categories=posicoes, ordered=True)`
raises `ValueError` when the requested list contains a duplicate, which is
the one fallible step of the stage. -/
def filtrarPorPosicao (df : List Row) (posicoesStr : String) : Except String (List Row) :=
  let posicoes := parsePosicoes posicoesStr
  if posicoes = [] then .ok df
  else
    let dfFilt := dropDupPos (df.filter (fun r => decide (r.CO_POSICAO ∈ posicoes))) []
    if posicoes.Nodup then .ok (List.insertionSort (posOrdLE posicoes) dfFilt)
    else .error "Categorical categories must be unique"

/-- `_filtrar_por_dificuldade`: `min_dif = 0` and `max_dif = 2000` act as
sentinels disabling the corresponding bound (with both sentinels the frame
is only sorted); the survivors are sorted ascending by difficulty. -/
def filtrarPorDificuldade (df : List Row) (minDif maxDif : ℚ) : List Row :=
  if df = [] then df
  else if minDif = 0 ∧ maxDif = 2000 then List.insertionSort difLE df
  else
    let dfF :=
      if minDif = 0 then df.filter (fun r => decide (r.NU_PARAM_B ≤ maxDif))
      else if maxDif = 2000 then df.filter (fun r => decide (minDif ≤ r.NU_PARAM_B))
      else df.filter (fun r => decide (minDif ≤ r.NU_PARAM_B ∧ r.NU_PARAM_B ≤ maxDif))
    List.insertionSort difLE dfF

/-- `_aplicar_filtros`: one year's stage — resolve exam codes, select rows
by subject and exam code, then apply the skill filter, then either the
position filter or (by default) the difficulty filter. -/
def aplicarFiltros (df : List Row) (ano : String) (materias : List String)
    (filtros : Filtros) : Except String (List Row × List String) :=
  let pw := obterProvasEscolhidas ano materias
  if pw.1 = [] then
    .ok ([], pw.2 ++ ["Nenhuma prova encontrada para o ano " ++ ano ++ " e matérias selecionadas"])
  else
    let provasVals := pw.1.map Prod.snd
    let dfBase := df.filter (fun r =>
      materias.contains r.SG_AREA && provasVals.contains r.CO_PROVA)
    let hab :=
      if filtros.filtrarHabilidade && truthyList filtros.habilidades then
        filtrarPorHabilidade dfBase (filtros.habilidades.getD [])
      else (dfBase, [])
    if truthyStr filtros.posicoes then
      match filtrarPorPosicao hab.1 (filtros.posicoes.getD "") with
      | .ok res => .ok (res, pw.2 ++ hab.2)
      | .error e => .error e
    else if filtros.filtrarDificuldade then
      .ok (filtrarPorDificuldade hab.1 filtros.minDif filtros.maxDif, pw.2 ++ hab.2)
    else .ok (hab.1, pw.2 ++ hab.2)

/-- `_aplicar_filtros_globais`: the cross-year quantity cap.  When the
combined frame exceeds the cap it is truncated to the cap, after re-sorting
by (year, difficulty) unless a position filter is active in the run. -/
def aplicarFiltrosGlobais (df : List Row) (filtros : Filtros) : List Row :=
  if df = [] then df
  else if filtros.filtrarQuantidade && truthyNat filtros.quantidade then
    let quantidadeMax := filtros.quantidade.getD 0
    if quantidadeMax < df.length then
      (if truthyStr filtros.posicoes then df
       else List.insertionSort anoDifLE df).take quantidadeMax
    else df
  else df

/-- The per-year loop of `carregar_questoes`: run `_aplicar_filtros` for
each year and keep the nonempty per-year frames (each of which the source
also tags with its `ANO` column), accumulating warnings; an exception in a
stage propagates out of the loop. -/
def processarAnosLoop (dfAnos : List Row) (materias : List String) (filtros : Filtros) :
    List Nat → Except String (List (List Row) × List String)
  | [] => .ok ([], [])
  | ano :: rest =>
    match aplicarFiltros (dfAnos.filter (fun r => r.ANO_PROVA == ano))
        (toString ano) materias filtros with
    | .error e => .error e
    | .ok (dfF, w) =>
      match processarAnosLoop dfAnos materias filtros rest with
      | .error e => .error e
      | .ok (dfs, ws) => .ok ((if dfF = [] then dfs else dfF :: dfs), w ++ ws)

/-- The final sequential numbering: `NUMERO_QUESTAO = index + 1`. -/
def numerar (df : List Row) : List (Nat × Row) :=
  df.enum.map (fun p => (p.1 + 1, p.2))

/-- `carregar_questoes`: restrict the consolidated table to the requested
years, run the per-year stage for each year, concatenate the nonempty
per-year results, apply the global quantity cap, and number the survivors
sequentially from 1. -/
def carregarQuestoes (consolidado : List Row) (anos : List String)
    (materias : List String) (filtros : Filtros) :
    Except String (List (Nat × Row) × List String) :=
  if consolidado = [] then .ok ([], ["DataFrame consolidado não disponível"])
  else
    match parseAnos anos with
    | none => .error "invalid literal for int() with base 10"
    | some anosInt =>
      let dfAnos := consolidado.filter (fun r => decide (r.ANO_PROVA ∈ anosInt))
      if dfAnos = [] then .ok ([], ["Nenhuma questão encontrada para os anos"])
      else
        match processarAnosLoop dfAnos materias filtros anosInt with
        | .error e => .error e
        | .ok (dfs, ws) =>
          if dfs = [] then .ok ([], ws)
          else .ok (numerar (aplicarFiltrosGlobais dfs.flatten filtros), ws)

/-! ### Question assembly (`main.py`, `AplicacaoENEM._processar_questoes`) -/

/-- One alternative of a question, as read from `details.json`. -/
structure Alternativa where
  letter : String
  text : String
  file : String
deriving DecidableEq, Repr

/-- The per-question detail record loaded by `carregar_detalhes_questao`. -/
structure DadosJson where
  context : Option String
  references : Option String
  alternativesIntroduction : Option String
  alternatives : List Alternativa
  files : List String
deriving DecidableEq, Repr

/-- Python `int(float(q))`: truncation toward zero. -/
def pythonTruncInt (q : ℚ) : Int := if 0 ≤ q then ⌊q⌋ else ⌈q⌉

/-- The assembled `Questao` entity; `numero` is the display number used by
the question title and the answer key. -/
structure Questao where
  numero : Nat
  ano : Nat
  posicao : Nat
  nota : ℚ
  habilidade : String
  gabarito : String
  contexto : Option String
  referencias : Option String
  introducaoAlternativas : Option String
  alternativas : List Alternativa
  arquivos : List String
deriving DecidableEq, Repr

/-- `criar_objeto_questao`. -/
def criarObjetoQuestao (row : Row) (dados : DadosJson) (numero : Nat) (ano : Nat) : Questao :=
  { numero := numero
    ano := ano
    posicao := row.CO_POSICAO
    nota := row.NU_PARAM_B
    habilidade :=
      match row.CO_HABILIDADE with
      | none => "-"
      | some q => toString (pythonTruncInt q)
    gabarito := row.TX_GABARITO
    contexto := dados.context
    referencias := dados.references
    introducaoAlternativas := dados.alternativesIntroduction
    alternativas := dados.alternatives
    arquivos := dados.files }

/-- `_processar_questoes`: walk the final frame with `enumerate(..., start=1)`;
a row whose per-question detail lookup is missing is skipped (with a log),
the others are assembled with `numero := idx` — the enumeration index, which
keeps counting across skipped rows. -/
def processarQuestoes (detalhes : Nat → Nat → Option DadosJson) (df : List Row) :
    List Questao :=
  (df.enum.map (fun p => (p.1 + 1, p.2))).filterMap (fun p =>
    match detalhes p.2.ANO_PROVA p.2.CO_POSICAO with
    | some dados => some (criarObjetoQuestao p.2 dados p.1 p.2.ANO_PROVA)
    | none => none)

/-! ### Input validation (`entradas.py`, `FiltrosQuestoes.validar`) -/

/-- The user-intent record produced by the input form. -/
structure FiltrosQuestoes where
  anos : List String
  materias : List String
  numerosQuestoes : Option (List Nat)
  dificuldadeMinima : ℚ
  dificuldadeMaxima : ℚ
  filtrarPorNumero : Bool
  filtrarPorDificuldade : Bool
  filtrarPorQuantidade : Bool
  quantidadeQuestoes : Option Nat
  filtrarPorHabilidade : Bool
  habilidades : Option (List Int)
deriving DecidableEq, Repr

/-- `FiltrosQuestoes.validar`: `true` iff no validation rule rejects. -/
def validar (f : FiltrosQuestoes) : Bool :=
  f.anos ≠ [] &&
  f.materias ≠ [] &&
  (!f.filtrarPorNumero || truthyList f.numerosQuestoes) &&
  (!f.filtrarPorDificuldade || decide (f.dificuldadeMinima ≤ f.dificuldadeMaxima)) &&
  (!f.filtrarPorQuantidade || truthyNat f.quantidadeQuestoes) &&
  (!f.filtrarPorHabilidade || truthyList f.habilidades) &&
  !(f.filtrarPorNumero && f.filtrarPorQuantidade)

/-- The `entradas()` compatibility shim: the position list is rendered as a
space-separated string (or `None` when absent or empty). -/
def posicoesStrDe (numeros : Option (List Nat)) : Option String :=
  match numeros with
  | some (n :: ns) => some (String.intercalate " " ((n :: ns).map toString))
  | _ => none

/-- The `filtros` dict as assembled by `AplicacaoENEM._gerar_documento`
from the form's values (`filtrar_dificuldade` is set iff no position
string is present). -/
def montarFiltros (f : FiltrosQuestoes) : Filtros :=
  let pos := posicoesStrDe f.numerosQuestoes
  { posicoes := pos
    minDif := f.dificuldadeMinima
    maxDif := f.dificuldadeMaxima
    filtrarQuantidade := f.filtrarPorQuantidade
    quantidade := f.quantidadeQuestoes
    filtrarDificuldade := !(truthyStr pos)
    filtrarHabilidade := f.filtrarPorHabilidade
    habilidades := f.habilidades }

/-! ## Theorems -/

/-! ### Claims C5, C6, C7 — concrete markup-parser evaluations.

The scanner `scanAux` recurses on a well-founded measure, so it is made
locally semireducible here to let `rfl`/`decide` evaluate it on the
concrete claim inputs. -/

section MarkupConcrete

attribute [local semireducible] scanAux

/-- C5 counterexample: the scenario input does not yield five runs (the
claim's own enumerated run list has seven entries, and so does the parse). -/
theorem C5_counterexample :
    (aplicarFormatacao "**A** and _B_ and ^C^ and __D__").length ≠ 5 := by decide

/-- C5 (amended): the scenario input yields seven runs — `"A"` bold,
`" and "` plain, `"B"` italic, `" and "` plain, `"C"` superscript,
`" and "` plain, `"D"` subscript — delimiters stripped, order preserved. -/
theorem C5_spec :
    aplicarFormatacao "**A** and _B_ and ^C^ and __D__" =
      [⟨['A'], Fmt.bold⟩, ⟨[' ', 'a', 'n', 'd', ' '], Fmt.plain⟩,
       ⟨['B'], Fmt.italic⟩, ⟨[' ', 'a', 'n', 'd', ' '], Fmt.plain⟩,
       ⟨['C'], Fmt.superscript⟩, ⟨[' ', 'a', 'n', 'd', ' '], Fmt.plain⟩,
       ⟨['D'], Fmt.subscript⟩] := rfl

/-- C6 counterexample: the empty string contains no markup delimiter, yet
parsing it yields no run at all rather than one empty unflagged run. -/
theorem C6_counterexample : aplicarFormatacao "" ≠ [⟨[], Fmt.plain⟩] := by decide

/-- C7 counterexample: in `"a __ b"` the lone `__` has no closing pair,
yet the italic pattern `_(?:.*?)_` matches the two underscores as an empty
italic span: a styled (italic) run is produced, so the text does not pass
through purely unflagged. -/
theorem C7_counterexample :
    ¬(∀ run ∈ aplicarFormatacao "a __ b", run.fmt = Fmt.plain) := by decide

end MarkupConcrete

/-! ### Claim C4 — the difficulty stage -/

/-- A row with difficulty 2500, used against the `max_dif = 2000` sentinel. -/
def rowDif2500 : Row := ⟨2020, "MT", 587, 1, some 1, 2500, "A"⟩

/-- C4 counterexample: with the interval [1, 2000] (the spec's own default
interval, `min ≤ max`), a row of difficulty 2500 survives the difficulty
stage even though 2500 > 2000: `max_dif = 2000` is a sentinel that disables
the upper bound. -/
theorem C4_counterexample :
    (1 : ℚ) ≤ 2000 ∧
    rowDif2500 ∈ filtrarPorDificuldade [rowDif2500] 1 2000 ∧
    ¬(rowDif2500.NU_PARAM_B ≤ 2000) := by decide

/-- C4 (amended): for `min ≤ max`, the difficulty stage always returns a
sequence non-decreasing in difficulty, and each surviving row satisfies the
lower bound unless `min = 0` (sentinel) and the upper bound unless
`max = 2000` (sentinel). -/
theorem C4_spec (df : List Row) (minDif maxDif : ℚ) (hmm : minDif ≤ maxDif) :
    List.Pairwise difLE (filtrarPorDificuldade df minDif maxDif) ∧
    ∀ r ∈ filtrarPorDificuldade df minDif maxDif,
      (minDif = 0 ∨ minDif ≤ r.NU_PARAM_B) ∧
      (maxDif = 2000 ∨ r.NU_PARAM_B ≤ maxDif) := by
  unfold filtrarPorDificuldade
  by_cases h0 : df = []
  · simp [h0]
  rw [if_neg h0]
  by_cases hs : minDif = 0 ∧ maxDif = 2000
  · rw [if_pos hs]
    exact ⟨List.sorted_insertionSort difLE df,
      fun r _ => ⟨Or.inl hs.1, Or.inl hs.2⟩⟩
  rw [if_neg hs]
  by_cases h1 : minDif = 0
  · rw [if_pos h1]
    refine ⟨List.sorted_insertionSort difLE _, fun r hr => ?_⟩
    rw [List.mem_insertionSort] at hr
    have := List.of_mem_filter hr
    exact ⟨Or.inl h1, Or.inr (by simpa using this)⟩
  rw [if_neg h1]
  by_cases h2 : maxDif = 2000
  · rw [if_pos h2]
    refine ⟨List.sorted_insertionSort difLE _, fun r hr => ?_⟩
    rw [List.mem_insertionSort] at hr
    have := List.of_mem_filter hr
    exact ⟨Or.inr (by simpa using this), Or.inl h2⟩
  · rw [if_neg h2]
    refine ⟨List.sorted_insertionSort difLE _, fun r hr => ?_⟩
    rw [List.mem_insertionSort] at hr
    have := List.of_mem_filter hr
    simp only [decide_eq_true_eq] at this
    exact ⟨Or.inr this.1, Or.inr this.2⟩

/-- C4 witness at a concrete input. -/
theorem C4_spec_witness :
    (1 : ℚ) ≤ 3 ∧
    (List.Pairwise difLE (filtrarPorDificuldade [rowDif2500] 1 3) ∧
      ∀ r ∈ filtrarPorDificuldade [rowDif2500] 1 3,
        ((1 : ℚ) = 0 ∨ 1 ≤ r.NU_PARAM_B) ∧ ((3 : ℚ) = 2000 ∨ r.NU_PARAM_B ≤ 3)) :=
  ⟨by norm_num, C4_spec [rowDif2500] 1 3 (by norm_num)⟩

/-! ### Claim C9 — sequential display numbers -/

/-- An empty per-question detail record. -/
def dadosVazio : DadosJson := ⟨none, none, none, [], []⟩

/-- Two rows at positions 10 and 11. -/
def rowPos10 : Row := ⟨2020, "MT", 587, 10, some 1, 5, "A"⟩

def rowPos11 : Row := ⟨2020, "MT", 587, 11, some 1, 3, "B"⟩

/-- A detail lookup that is missing exactly for position 10. -/
def detalhesSem10 : Nat → Nat → Option DadosJson :=
  fun _ pos => if pos == 10 then none else some dadosVazio

/-- C9 counterexample: with two rows and the first row's detail lookup
missing, the single assembled question carries display number 2, not 1:
the enumeration index keeps counting across skipped rows, so the numbers
are not contiguous `1..N`. -/
theorem C9_counterexample :
    (processarQuestoes detalhesSem10 [rowPos10, rowPos11]).length = 1 ∧
    (processarQuestoes detalhesSem10 [rowPos10, rowPos11]).map Questao.numero = [2] ∧
    (processarQuestoes detalhesSem10 [rowPos10, rowPos11]).map Questao.numero ≠ [1] := by
  decide

theorem processarQuestoes_enumFrom_numeros
    (detalhes : Nat → Nat → Option DadosJson) :
    ∀ (df : List Row) (n : Nat),
      (∀ r ∈ df, (detalhes r.ANO_PROVA r.CO_POSICAO).isSome) →
      ((((df.enumFrom n).map (fun p => (p.1 + 1, p.2))).filterMap (fun p =>
          match detalhes p.2.ANO_PROVA p.2.CO_POSICAO with
          | some dados => some (criarObjetoQuestao p.2 dados p.1 p.2.ANO_PROVA)
          | none => none)).map Questao.numero) = List.range' (n + 1) df.length := by
  intro df
  induction df with
  | nil => intro n _; simp
  | cons r rs ih =>
    intro n hall
    have hr := hall r (by simp)
    match hd : detalhes r.ANO_PROVA r.CO_POSICAO with
    | none => rw [hd] at hr; simp at hr
    | some dados =>
      simp only [List.enumFrom_cons, List.map_cons, List.filterMap_cons, hd,
        List.map_cons]
      have := ih (n + 1) (fun x hx => hall x (by simp [hx]))
      rw [this]
      simp [criarObjetoQuestao, List.range'_succ]

/-- C9 (amended): provided every per-question detail lookup succeeds, the
display numbers of the assembled questions are exactly `1..N` in order
(`N` the number of rows, all of which survive). -/
theorem C9_spec (detalhes : Nat → Nat → Option DadosJson) (df : List Row)
    (hall : ∀ r ∈ df, (detalhes r.ANO_PROVA r.CO_POSICAO).isSome) :
    (processarQuestoes detalhes df).map Questao.numero = List.range' 1 df.length := by
  have := processarQuestoes_enumFrom_numeros detalhes df 0 hall
  simpa [processarQuestoes, List.enum] using this

/-- C9 witness at a concrete input. -/
theorem C9_spec_witness :
    (∀ r ∈ [rowPos10, rowPos11],
      ((fun _ _ => some dadosVazio : Nat → Nat → Option DadosJson)
        r.ANO_PROVA r.CO_POSICAO).isSome) ∧
    (processarQuestoes (fun _ _ => some dadosVazio) [rowPos10, rowPos11]).map
      Questao.numero = List.range' 1 2 :=
  ⟨by decide, C9_spec (fun _ _ => some dadosVazio) [rowPos10, rowPos11] (by decide)⟩

/-! ### Claim C2 — the quantity cap -/

theorem take_insertionSort_smallest {α : Type} (r : α → α → Prop) [DecidableRel r]
    [IsTotal α r] [IsTrans α r] (l : List α) (q : Nat) :
    ∃ rest, List.Perm ((List.insertionSort r l).take q ++ rest) l ∧
      ∀ a ∈ (List.insertionSort r l).take q, ∀ b ∈ rest, r a b := by
  refine ⟨(List.insertionSort r l).drop q, ?_, ?_⟩
  · rw [List.take_append_drop]
    exact List.perm_insertionSort r l
  · have hs : List.Pairwise r
        ((List.insertionSort r l).take q ++ (List.insertionSort r l).drop q) := by
      rw [List.take_append_drop]
      exact List.sorted_insertionSort r l
    exact (List.pairwise_append.mp hs).2.2

/-- C2: with an active quantity cap `Q` and no active position filter, a
combined frame of size `M ≤ Q` passes the cap stage untouched, and a frame
of size `M > Q` is cut to exactly `Q` rows which are smallest under the
ascending (year, difficulty) order: the survivors, together with some rest,
permute the input, and every survivor precedes every dropped row in that
order. -/
theorem C2_spec (df : List Row) (filtros : Filtros) (Q : Nat)
    (hact : filtros.filtrarQuantidade = true)
    (hq : filtros.quantidade = some Q) (hQpos : 0 < Q)
    (hpos : truthyStr filtros.posicoes = false) :
    (df.length ≤ Q → aplicarFiltrosGlobais df filtros = df) ∧
    (Q < df.length →
      (aplicarFiltrosGlobais df filtros).length = Q ∧
      ∃ rest, List.Perm (aplicarFiltrosGlobais df filtros ++ rest) df ∧
        ∀ a ∈ aplicarFiltrosGlobais df filtros, ∀ b ∈ rest, anoDifLE a b) := by
  unfold aplicarFiltrosGlobais
  by_cases h0 : df = []
  · subst h0
    refine ⟨fun _ => by simp, fun h => ?_⟩
    simp only [List.length_nil] at h
    omega
  rw [if_neg h0]
  have htr : truthyNat filtros.quantidade = true := by
    rw [hq]; simp only [truthyNat, ne_eq, decide_eq_true_eq]; omega
  rw [hact, htr, hq]
  simp only [Bool.and_self, if_true, Option.getD_some, hpos, Bool.false_eq_true,
    if_false]
  constructor
  · intro hle
    rw [if_neg (by omega)]
  · intro hlt
    rw [if_pos hlt]
    refine ⟨?_, ?_⟩
    · rw [List.length_take, List.length_insertionSort]
      omega
    · exact take_insertionSort_smallest anoDifLE df Q

/-- The cap-stage filter spec used by the C2 witness: cap 2, no position
filter. -/
def filtrosCap2 : Filtros := ⟨none, 0, 2000, true, some 2, true, false, none⟩

/-- C2 witness at a concrete input (three rows, cap 2). -/
theorem C2_spec_witness :
    (filtrosCap2.filtrarQuantidade = true ∧ filtrosCap2.quantidade = some 2 ∧
      0 < 2 ∧ truthyStr filtrosCap2.posicoes = false) ∧
    (([rowPos10, rowPos11, rowDif2500].length ≤ 2 →
        aplicarFiltrosGlobais [rowPos10, rowPos11, rowDif2500] filtrosCap2 =
          [rowPos10, rowPos11, rowDif2500]) ∧
     (2 < [rowPos10, rowPos11, rowDif2500].length →
        (aplicarFiltrosGlobais [rowPos10, rowPos11, rowDif2500] filtrosCap2).length = 2 ∧
        ∃ rest, List.Perm
            (aplicarFiltrosGlobais [rowPos10, rowPos11, rowDif2500] filtrosCap2 ++ rest)
            [rowPos10, rowPos11, rowDif2500] ∧
          ∀ a ∈ aplicarFiltrosGlobais [rowPos10, rowPos11, rowDif2500] filtrosCap2,
            ∀ b ∈ rest, anoDifLE a b)) :=
  ⟨⟨rfl, rfl, by omega, rfl⟩,
   C2_spec [rowPos10, rowPos11, rowDif2500] filtrosCap2 2 rfl rfl (by omega) rfl⟩

/-! ### Claim C3 — the position filter -/

theorem mem_dropDupPos {r : Row} :
    ∀ {l : List Row} {seen : List Nat},
      r ∈ dropDupPos l seen ↔
        (r.CO_POSICAO ∉ seen ∧
          l.find? (fun x => x.CO_POSICAO == r.CO_POSICAO) = some r) := by
  intro l
  induction l with
  | nil => intro seen; simp [dropDupPos]
  | cons x xs ih =>
    intro seen
    rw [dropDupPos]
    by_cases hpos : x.CO_POSICAO = r.CO_POSICAO
    · rw [List.find?_cons_of_pos _ (by simp [hpos])]
      by_cases hx : x.CO_POSICAO ∈ seen
      · rw [if_pos hx, ih]
        constructor
        · rintro ⟨hns, _⟩
          exact absurd (show r.CO_POSICAO ∈ seen by rw [← hpos]; exact hx) hns
        · rintro ⟨hns, _⟩
          exact absurd (show r.CO_POSICAO ∈ seen by rw [← hpos]; exact hx) hns
      · rw [if_neg hx]
        simp only [List.mem_cons]
        rw [ih]
        constructor
        · intro hmem
          rcases hmem with heq | ⟨hns, _⟩
          · constructor
            · rw [heq]; exact hx
            · rw [heq]
          · exact absurd
              (show r.CO_POSICAO ∈ x.CO_POSICAO :: seen by
                rw [← hpos]; exact List.mem_cons_self _ _) hns
        · rintro ⟨hns, heq⟩
          have hxr : x = r := by simpa using heq
          exact Or.inl hxr.symm
    · rw [List.find?_cons_of_neg _ (by simp [hpos])]
      by_cases hx : x.CO_POSICAO ∈ seen
      · rw [if_pos hx, ih]
      · rw [if_neg hx]
        simp only [List.mem_cons]
        rw [ih]
        constructor
        · intro hmem
          rcases hmem with heq | ⟨hns, hf⟩
          · exact absurd (show x.CO_POSICAO = r.CO_POSICAO by rw [heq]) hpos
          · exact ⟨fun hc => hns (List.mem_cons_of_mem _ hc), hf⟩
        · rintro ⟨hns, hf⟩
          refine Or.inr ⟨?_, hf⟩
          intro hc
          rcases List.mem_cons.mp hc with h1 | h2
          · exact hpos h1.symm
          · exact hns h2

theorem find?_filter_mem {posicoes : List Nat} {k : Nat} (hk : k ∈ posicoes) :
    ∀ {df : List Row},
      (df.filter (fun r => decide (r.CO_POSICAO ∈ posicoes))).find?
          (fun x => x.CO_POSICAO == k) =
        df.find? (fun x => x.CO_POSICAO == k) := by
  intro df
  induction df with
  | nil => simp
  | cons x xs ih =>
    by_cases hmem : x.CO_POSICAO ∈ posicoes
    · rw [List.filter_cons_of_pos (by simpa using hmem)]
      by_cases hpos : x.CO_POSICAO = k
      · rw [List.find?_cons_of_pos _ (by simp [hpos]),
          List.find?_cons_of_pos _ (by simp [hpos])]
      · rw [List.find?_cons_of_neg _ (by simp [hpos]),
          List.find?_cons_of_neg _ (by simp [hpos]), ih]
    · rw [List.filter_cons_of_neg (by simpa using hmem)]
      have hpos : x.CO_POSICAO ≠ k := fun hc => hmem (hc ▸ hk)
      rw [List.find?_cons_of_neg _ (by simp [hpos]), ih]

theorem pairwise_ne_dropDupPos :
    ∀ (l : List Row) (seen : List Nat),
      List.Pairwise (fun a b : Row => a.CO_POSICAO ≠ b.CO_POSICAO)
        (dropDupPos l seen) := by
  intro l
  induction l with
  | nil => intro seen; simp [dropDupPos]
  | cons x xs ih =>
    intro seen
    rw [dropDupPos]
    by_cases hx : x.CO_POSICAO ∈ seen
    · rw [if_pos hx]; exact ih seen
    · rw [if_neg hx]
      refine List.Pairwise.cons ?_ (ih _)
      intro b hb
      have := (mem_dropDupPos.mp hb).1
      intro hc
      exact this (hc ▸ List.mem_cons_self _ _)

/-- Every requested position is found: the filterMap keeps one row per
requested position, in the order of the request list. -/
theorem filterMap_find?_map_pos {df : List Row} :
    ∀ {posicoes : List Nat},
      (∀ p ∈ posicoes, ∃ r ∈ df, r.CO_POSICAO = p) →
      (posicoes.filterMap
          (fun p => df.find? (fun r => r.CO_POSICAO == p))).map Row.CO_POSICAO =
        posicoes := by
  intro posicoes
  induction posicoes with
  | nil => intro _; simp
  | cons p ps ih =>
    intro hpres
    obtain ⟨r, hr, hrp⟩ := hpres p (by simp)
    have hfound : (df.find? (fun x => x.CO_POSICAO == p)).isSome := by
      rw [List.find?_isSome]
      exact ⟨r, hr, by simp [hrp]⟩
    match hf : df.find? (fun x => x.CO_POSICAO == p) with
    | none => rw [hf] at hfound; simp at hfound
    | some a =>
      have ha : a.CO_POSICAO = p := by
        have := List.find?_some hf
        simpa using this
      simp only [List.filterMap_cons, hf, List.map_cons, ha]
      rw [ih (fun q hq => hpres q (by simp [hq]))]

theorem sorted_idx_filterMap_find? {df : List Row} :
    ∀ {posicoes : List Nat}, posicoes.Nodup →
      List.Pairwise
        (fun a b : Row =>
          posicoes.indexOf a.CO_POSICAO < posicoes.indexOf b.CO_POSICAO)
        (posicoes.filterMap (fun p => df.find? (fun r => r.CO_POSICAO == p))) := by
  intro posicoes
  induction posicoes with
  | nil => intro _; simp
  | cons p ps ih =>
    intro hnd
    have hndps : ps.Nodup := hnd.of_cons
    have hpnotin : p ∉ ps := by
      intro hc
      exact (List.nodup_cons.mp hnd).1 hc
    have hmem : ∀ b ∈ ps.filterMap (fun q => df.find? (fun r => r.CO_POSICAO == q)),
        b.CO_POSICAO ∈ ps ∧ b.CO_POSICAO ≠ p := by
      intro b hb
      obtain ⟨q, hq, hfq⟩ := List.mem_filterMap.mp hb
      have : b.CO_POSICAO = q := by simpa using List.find?_some hfq
      subst this
      exact ⟨hq, fun hc => hpnotin (hc ▸ hq)⟩
    rw [List.filterMap_cons]
    cases hf : df.find? (fun r => r.CO_POSICAO == p) with
    | none =>
      refine (ih hndps).imp_of_mem ?_
      intro a b ha hb hlt
      have ha' := hmem a ha
      have hb' := hmem b hb
      rw [List.indexOf_cons_ne _ ha'.2.symm, List.indexOf_cons_ne _ hb'.2.symm]
      omega
    | some a =>
      have hap : a.CO_POSICAO = p := by simpa using List.find?_some hf
      refine List.Pairwise.cons ?_ ?_
      · intro b hb
        have hb' := hmem b hb
        rw [hap, List.indexOf_cons_self, List.indexOf_cons_ne _ hb'.2.symm]
        omega
      · refine (ih hndps).imp_of_mem ?_
        intro x y hx hy hlt
        have hx' := hmem x hx
        have hy' := hmem y hy
        rw [List.indexOf_cons_ne _ hx'.2.symm, List.indexOf_cons_ne _ hy'.2.symm]
        omega

/-- C3: with an active position filter whose parsed list is
`posicoes = [p1, ..., pk]` (nonempty, duplicate-free) over a table
containing a row at each requested position, the stage succeeds and
returns, for each requested position in the caller-given order, the first
table row at that position: the result's position sequence is exactly
`posicoes`, whatever the storage order of the table. -/
theorem C3_spec (df : List Row) (s : String) (posicoes : List Nat)
    (hparse : parsePosicoes s = posicoes)
    (hne : posicoes ≠ [])
    (hnodup : posicoes.Nodup)
    (hpresent : ∀ p ∈ posicoes, ∃ r ∈ df, r.CO_POSICAO = p) :
    filtrarPorPosicao df s =
      .ok (posicoes.filterMap (fun p => df.find? (fun r => r.CO_POSICAO == p))) ∧
    (posicoes.filterMap
        (fun p => df.find? (fun r => r.CO_POSICAO == p))).map Row.CO_POSICAO =
      posicoes := by
  have hmap := @filterMap_find?_map_pos df posicoes hpresent
  refine ⟨?_, hmap⟩
  unfold filtrarPorPosicao
  rw [hparse, if_neg hne, if_pos hnodup]
  congr 1
  -- the sorted deduplicated filtered table equals the requested-order list
  set l := df.filter (fun r => decide (r.CO_POSICAO ∈ posicoes)) with hl
  set dd := dropDupPos l [] with hdd
  set rhs := posicoes.filterMap (fun p => df.find? (fun r => r.CO_POSICAO == p)) with hrhs
  have hmem_dd : ∀ r : Row, r ∈ dd ↔
      l.find? (fun x => x.CO_POSICAO == r.CO_POSICAO) = some r := by
    intro r
    rw [hdd, mem_dropDupPos]
    simp
  have hmem_rhs : ∀ r : Row, r ∈ rhs ↔
      (r.CO_POSICAO ∈ posicoes ∧
        df.find? (fun x => x.CO_POSICAO == r.CO_POSICAO) = some r) := by
    intro r
    rw [hrhs, List.mem_filterMap]
    constructor
    · rintro ⟨p, hp, hfp⟩
      have : r.CO_POSICAO = p := by simpa using List.find?_some hfp
      subst this
      exact ⟨hp, hfp⟩
    · rintro ⟨hp, hf⟩
      exact ⟨r.CO_POSICAO, hp, hf⟩
  have hmem_same : ∀ r : Row, r ∈ dd ↔ r ∈ rhs := by
    intro r
    rw [hmem_dd, hmem_rhs]
    constructor
    · intro hf
      have hrl : r ∈ l := List.mem_of_find?_eq_some hf
      have hrpos : r.CO_POSICAO ∈ posicoes := by
        have := List.of_mem_filter hrl
        simpa using this
      rw [find?_filter_mem hrpos] at hf
      exact ⟨hrpos, hf⟩
    · rintro ⟨hp, hf⟩
      rw [find?_filter_mem hp]
      exact hf
  have hnd_dd : dd.Nodup :=
    (pairwise_ne_dropDupPos l []).imp (fun h => fun hc => h (hc ▸ rfl))
  have hnd_rhs : rhs.Nodup := by
    have : (rhs.map Row.CO_POSICAO).Nodup := by rw [hrhs, hmap]; exact hnodup
    exact this.of_map
  have hperm_dd_rhs : List.Perm dd rhs :=
    (List.perm_ext_iff_of_nodup hnd_dd hnd_rhs).mpr hmem_same
  -- both sides are sorted by the strict requested-order key
  haveI : IsAntisymm Row (fun a b : Row =>
      posicoes.indexOf a.CO_POSICAO < posicoes.indexOf b.CO_POSICAO) :=
    ⟨fun a b h1 h2 => absurd h1 (by omega)⟩
  have hsorted_out : List.Pairwise
      (fun a b : Row =>
        posicoes.indexOf a.CO_POSICAO < posicoes.indexOf b.CO_POSICAO)
      (List.insertionSort (posOrdLE posicoes) dd) := by
    have hle : List.Pairwise (posOrdLE posicoes)
        (List.insertionSort (posOrdLE posicoes) dd) :=
      List.sorted_insertionSort (posOrdLE posicoes) dd
    have hperm : List.Perm (List.insertionSort (posOrdLE posicoes) dd) dd :=
      List.perm_insertionSort (posOrdLE posicoes) dd
    have hne2 : List.Pairwise (fun a b : Row => a.CO_POSICAO ≠ b.CO_POSICAO)
        (List.insertionSort (posOrdLE posicoes) dd) := by
      have hmapnd : ((List.insertionSort (posOrdLE posicoes) dd).map
          Row.CO_POSICAO).Nodup := by
        refine (List.Perm.nodup_iff (List.Perm.map Row.CO_POSICAO hperm)).mpr ?_
        have : (rhs.map Row.CO_POSICAO).Nodup := by rw [hrhs, hmap]; exact hnodup
        exact (List.Perm.nodup_iff (List.Perm.map Row.CO_POSICAO hperm_dd_rhs)).mpr this
      exact (List.pairwise_map.mp hmapnd)
    have hposmem : ∀ x ∈ List.insertionSort (posOrdLE posicoes) dd,
        x.CO_POSICAO ∈ posicoes := by
      intro x hx
      have : x ∈ dd := hperm.subset hx
      exact ((hmem_rhs x).mp ((hmem_same x).mp this)).1
    refine (hle.and hne2).imp_of_mem ?_
    intro a b ha hb hab
    obtain ⟨hle2, hne3⟩ := hab
    have : posicoes.indexOf a.CO_POSICAO ≠ posicoes.indexOf b.CO_POSICAO := by
      intro hc
      exact hne3 ((List.indexOf_inj (hposmem a ha) (hposmem b hb)).mp hc)
    exact lt_of_le_of_ne hle2 this
  have hsorted_rhs : List.Pairwise
      (fun a b : Row =>
        posicoes.indexOf a.CO_POSICAO < posicoes.indexOf b.CO_POSICAO) rhs :=
    sorted_idx_filterMap_find? hnodup
  exact List.eq_of_perm_of_sorted
    ((List.perm_insertionSort (posOrdLE posicoes) dd).trans hperm_dd_rhs)
    hsorted_out hsorted_rhs

/-- C3 witness at a concrete input: positions requested as "10 11" over a
table stored in the opposite order. -/
theorem C3_spec_witness :
    (parsePosicoes "10 11" = [10, 11] ∧ ([10, 11] : List Nat) ≠ [] ∧
      ([10, 11] : List Nat).Nodup ∧
      ∀ p ∈ [10, 11], ∃ r ∈ [rowPos11, rowPos10], r.CO_POSICAO = p) ∧
    (filtrarPorPosicao [rowPos11, rowPos10] "10 11" =
        .ok (([10, 11] : List Nat).filterMap
          (fun p => [rowPos11, rowPos10].find? (fun r => r.CO_POSICAO == p))) ∧
      (([10, 11] : List Nat).filterMap
          (fun p => [rowPos11, rowPos10].find? (fun r => r.CO_POSICAO == p))).map
        Row.CO_POSICAO = [10, 11]) :=
  ⟨⟨by decide, by decide, by decide, by decide⟩,
   C3_spec [rowPos11, rowPos10] "10 11" [10, 11] (by decide) (by decide)
     (by decide) (by decide)⟩

/-! ### Claims C6 and C7 — pass-through of unmatched text -/

theorem scanAux_nil (gap : List Char) :
    scanAux gap [] = if gap.isEmpty then [] else [⟨gap, Fmt.plain⟩] := by
  rw [scanAux]
  rfl

theorem scanAux_cons_none {c : Char} {rest : List Char} (gap : List Char)
    (h : matchAt (c :: rest) = none) :
    scanAux gap (c :: rest) = scanAux (gap ++ [c]) rest := by
  rw [scanAux]
  split
  · rename_i heq
    rw [h] at heq
    exact absurd heq (by simp)
  · rfl

theorem scanAux_match_some {gap cs : List Char} {f : Fmt} {tok rest : List Char}
    (h : matchAt cs = some (f, tok, rest)) :
    scanAux gap cs =
      (if gap.isEmpty then [] else [⟨gap, Fmt.plain⟩]) ++
        ⟨stripDelims tok, f⟩ :: scanAux [] rest := by
  rw [scanAux]
  split
  · rename_i f' tok' rest' heq
    rw [h] at heq
    simp only [Option.some.injEq, Prod.mk.injEq] at heq
    rw [heq.1, heq.2.1, heq.2.2]
  · rename_i heq
    rw [h] at heq
    exact absurd heq (by simp)

/-- A text containing none of the three delimiter characters. -/
def cleanChars (cs : List Char) : Prop := ∀ c ∈ cs, c ≠ '*' ∧ c ≠ '_' ∧ c ≠ '^'

instance (cs : List Char) : Decidable (cleanChars cs) :=
  List.decidableBAll _ cs

/-- Adjacent double star, the bold delimiter, as a Boolean scan. -/
def hasDoubleStar : List Char → Bool
  | [] => false
  | [_] => false
  | c1 :: c2 :: cs => (c1 == '*' && c2 == '*') || hasDoubleStar (c2 :: cs)

theorem findClose_eq_none_of_head_notMem {d0 : Char} {d cs : List Char}
    (h : ∀ c ∈ cs, c ≠ d0) : findClose (d0 :: d) cs = none := by
  induction cs with
  | nil => rfl
  | cons c cs ih =>
    rw [findClose]
    have hc : c ≠ d0 := h c (by simp)
    have hbeq : (d0 == c) = false := beq_eq_false_iff_ne.mpr (fun hcd => hc hcd.symm)
    have hpre : (List.isPrefixOf (d0 :: d) (c :: cs) : Bool) = false := by
      simp only [List.isPrefixOf, hbeq, Bool.false_and]
    rw [hpre]
    simp only [Bool.false_eq_true, if_false]
    by_cases hn : c = '\n'
    · rw [if_pos hn]
    · rw [if_neg hn, ih (fun x hx => h x (by simp [hx]))]
      rfl

theorem matchAt_none_of_head_clean {c : Char} {rest : List Char}
    (hc : c ≠ '*' ∧ c ≠ '_' ∧ c ≠ '^') : matchAt (c :: rest) = none := by
  have hb : ('*' == c) = false := beq_eq_false_iff_ne.mpr (fun h => hc.1 h.symm)
  have hu : ('_' == c) = false := beq_eq_false_iff_ne.mpr (fun h => hc.2.1 h.symm)
  have hh : ('^' == c) = false := beq_eq_false_iff_ne.mpr (fun h => hc.2.2 h.symm)
  simp [matchAt, patternDelims, firstPattern, tryPattern, List.isPrefixOf,
    hb, hu, hh]

/-- Scanning a delimiter-character-free text emits it as one plain run. -/
theorem scanAux_clean :
    ∀ (cs gap : List Char), cleanChars cs →
      scanAux gap cs =
        if (gap ++ cs).isEmpty then [] else [⟨gap ++ cs, Fmt.plain⟩] := by
  intro cs
  induction cs with
  | nil =>
    intro gap _
    rw [scanAux_nil]
    simp
  | cons c rest ih =>
    intro gap hclean
    rw [scanAux_cons_none gap (matchAt_none_of_head_clean (hclean c (by simp)))]
    rw [ih (gap ++ [c]) (fun x hx => hclean x (by simp [hx]))]
    simp

/-- The scan walks through a delimiter-free prefix, accumulating it. -/
theorem scanAux_clean_prefix :
    ∀ (pre gap mid : List Char), cleanChars pre →
      scanAux gap (pre ++ mid) = scanAux (gap ++ pre) mid := by
  intro pre
  induction pre with
  | nil => intro gap mid _; simp
  | cons c rest ih =>
    intro gap mid hclean
    rw [List.cons_append,
      scanAux_cons_none gap (matchAt_none_of_head_clean (hclean c (by simp))),
      ih (gap ++ [c]) mid (fun x hx => hclean x (by simp [hx]))]
    simp

theorem matchAt_star2 {suf : List Char} (hsuf : cleanChars suf) :
    matchAt ('*' :: '*' :: suf) = none := by
  have hfc : findClose ['*', '*'] suf = none :=
    findClose_eq_none_of_head_notMem (fun c hc => (hsuf c hc).1)
  simp [matchAt, patternDelims, firstPattern, tryPattern, List.isPrefixOf, hfc]

theorem matchAt_star1 {suf : List Char} (hsuf : cleanChars suf) :
    matchAt ('*' :: suf) = none := by
  have hb : (List.isPrefixOf ['*'] suf : Bool) = false := by
    cases suf with
    | nil => rfl
    | cons c2 rs =>
      simp [List.isPrefixOf,
        beq_eq_false_iff_ne.mpr (fun h : '*' = c2 => (hsuf c2 (by simp)).1 h.symm)]
  simp [matchAt, patternDelims, firstPattern, tryPattern, List.isPrefixOf, hb]

theorem matchAt_underscore1 {suf : List Char} (hsuf : cleanChars suf) :
    matchAt ('_' :: suf) = none := by
  have hb : (List.isPrefixOf ['_'] suf : Bool) = false := by
    cases suf with
    | nil => rfl
    | cons c2 rs =>
      simp [List.isPrefixOf,
        beq_eq_false_iff_ne.mpr (fun h : '_' = c2 => (hsuf c2 (by simp)).2.1 h.symm)]
  have hfc : findClose ['_'] suf = none :=
    findClose_eq_none_of_head_notMem (fun c hc => (hsuf c hc).2.1)
  simp [matchAt, patternDelims, firstPattern, tryPattern, List.isPrefixOf, hb, hfc]

theorem matchAt_caret1 {suf : List Char} (hsuf : cleanChars suf) :
    matchAt ('^' :: suf) = none := by
  have hfc : findClose ['^'] suf = none :=
    findClose_eq_none_of_head_notMem (fun c hc => (hsuf c hc).2.2)
  simp [matchAt, patternDelims, firstPattern, tryPattern, List.isPrefixOf, hfc]

/-- At a lone `__`, the subscript pattern fails (no second `__`) but the
italic pattern matches the two underscores with empty inner text. -/
theorem matchAt_underscore2 {suf : List Char} (hsuf : cleanChars suf) :
    matchAt ('_' :: '_' :: suf) = some (Fmt.italic, ['_', '_'], suf) := by
  have hfc2 : findClose ['_', '_'] suf = none :=
    findClose_eq_none_of_head_notMem (fun c hc => (hsuf c hc).2.1)
  have hfc1 : findClose ['_'] ('_' :: suf) = some ([], suf) := by
    rw [findClose]
    simp [List.isPrefixOf]
  simp [matchAt, patternDelims, firstPattern, tryPattern, List.isPrefixOf,
    hfc2, hfc1]

theorem matchAt_none_of_noDelims :
    ∀ {c : Char} {rest : List Char}, hasDoubleStar (c :: rest) = false →
      '_' ∉ c :: rest → '^' ∉ c :: rest → matchAt (c :: rest) = none := by
  intro c rest hds hu hh
  by_cases hstar : c = '*'
  · subst hstar
    have hb : ¬(['*'] <+: rest) := by
      rintro ⟨t, ht⟩
      rw [← ht] at hds
      simp [hasDoubleStar] at hds
    simp [matchAt, patternDelims, firstPattern, tryPattern, List.isPrefixOf, hb]
  · refine matchAt_none_of_head_clean ⟨hstar, ?_, ?_⟩
    · intro hc
      exact hu (show '_' ∈ c :: rest by rw [← hc]; exact List.mem_cons_self _ _)
    · intro hc
      exact hh (show '^' ∈ c :: rest by rw [← hc]; exact List.mem_cons_self _ _)

theorem hasDoubleStar_tail_false {c : Char} {rest : List Char}
    (h : hasDoubleStar (c :: rest) = false) : hasDoubleStar rest = false := by
  cases rest with
  | nil => rfl
  | cons c2 rs =>
    rw [hasDoubleStar, Bool.or_eq_false_iff] at h
    exact h.2

/-- Scanning a text free of the four delimiters emits it as one plain run. -/
theorem scanAux_noDelims :
    ∀ (cs gap : List Char), hasDoubleStar cs = false → '_' ∉ cs → '^' ∉ cs →
      scanAux gap cs =
        if (gap ++ cs).isEmpty then [] else [⟨gap ++ cs, Fmt.plain⟩] := by
  intro cs
  induction cs with
  | nil =>
    intro gap _ _ _
    rw [scanAux_nil]
    simp
  | cons c rest ih =>
    intro gap hds hu hh
    rw [scanAux_cons_none gap (matchAt_none_of_noDelims hds hu hh)]
    rw [ih (gap ++ [c]) (hasDoubleStar_tail_false hds)
      (fun hc => hu (List.mem_cons_of_mem _ hc))
      (fun hc => hh (List.mem_cons_of_mem _ hc))]
    simp

/-- C6 (amended): a nonempty input containing none of the four markup
delimiters — no `**` (no adjacent stars), no `_` (hence no `__`), no `^` —
parses to exactly one unflagged run whose text is the input itself.  (The
empty input instead yields the empty run sequence.) -/
theorem C6_spec (s : String) (hne : s.data ≠ [])
    (hds : hasDoubleStar s.data = false) (hu : '_' ∉ s.data) (hh : '^' ∉ s.data) :
    aplicarFormatacao s = [⟨s.data, Fmt.plain⟩] := by
  rw [aplicarFormatacao, scanAux_noDelims s.data [] hds hu hh]
  simp only [List.nil_append]
  rw [if_neg (by simpa using hne)]

/-- C6 witness at a concrete input. -/
theorem C6_spec_witness :
    ("hello *world*".data ≠ [] ∧ hasDoubleStar "hello *world*".data = false ∧
      '_' ∉ "hello *world*".data ∧ '^' ∉ "hello *world*".data) ∧
    aplicarFormatacao "hello *world*" = [⟨"hello *world*".data, Fmt.plain⟩] :=
  ⟨⟨by decide, by decide, by decide, by decide⟩,
   C6_spec "hello *world*" (by decide) (by decide) (by decide) (by decide)⟩

/-- C7 (amended): inside otherwise delimiter-character-free text, a lone
`**`, a lone `_` and a lone `^` (no matching closer anywhere) fail every
pattern and pass through inside a single unflagged run; a lone `__`,
however, is matched by the italic pattern as an empty span: its two
underscores are stripped and an empty italic-flagged run is emitted between
the surrounding plain text. -/
theorem C7_spec (pre suf : String) (hpre : cleanChars pre.data)
    (hsuf : cleanChars suf.data) :
    aplicarFormatacao (pre ++ "**" ++ suf) =
      [⟨(pre ++ "**" ++ suf).data, Fmt.plain⟩] ∧
    aplicarFormatacao (pre ++ "_" ++ suf) =
      [⟨(pre ++ "_" ++ suf).data, Fmt.plain⟩] ∧
    aplicarFormatacao (pre ++ "^" ++ suf) =
      [⟨(pre ++ "^" ++ suf).data, Fmt.plain⟩] ∧
    aplicarFormatacao (pre ++ "__" ++ suf) =
      (if pre.data.isEmpty then [] else [⟨pre.data, Fmt.plain⟩]) ++
        ⟨[], Fmt.italic⟩ ::
          (if suf.data.isEmpty then [] else [⟨suf.data, Fmt.plain⟩]) := by
  have hdata : ∀ mid : String, (pre ++ mid ++ suf).data =
      pre.data ++ (mid.data ++ suf.data) := by
    intro mid
    rw [String.data_append, String.data_append, List.append_assoc]
  refine ⟨?_, ?_, ?_, ?_⟩
  · rw [aplicarFormatacao, hdata "**",
      show ("**".data : List Char) = ['*', '*'] from rfl,
      show (['*', '*'] : List Char) ++ suf.data = '*' :: '*' :: suf.data from rfl,
      scanAux_clean_prefix pre.data [] (('*' :: '*' :: suf.data)) hpre]
    simp only [List.nil_append]
    rw [scanAux_cons_none pre.data (matchAt_star2 hsuf),
      scanAux_cons_none (pre.data ++ ['*']) (matchAt_star1 hsuf),
      scanAux_clean suf.data ((pre.data ++ ['*']) ++ ['*']) hsuf]
    rw [if_neg (by simp)]
    simp
  · rw [aplicarFormatacao, hdata "_",
      show ("_".data : List Char) = ['_'] from rfl,
      show (['_'] : List Char) ++ suf.data = '_' :: suf.data from rfl,
      scanAux_clean_prefix pre.data [] ('_' :: suf.data) hpre]
    simp only [List.nil_append]
    rw [scanAux_cons_none pre.data (matchAt_underscore1 hsuf),
      scanAux_clean suf.data (pre.data ++ ['_']) hsuf]
    rw [if_neg (by simp)]
    simp
  · rw [aplicarFormatacao, hdata "^",
      show ("^".data : List Char) = ['^'] from rfl,
      show (['^'] : List Char) ++ suf.data = '^' :: suf.data from rfl,
      scanAux_clean_prefix pre.data [] ('^' :: suf.data) hpre]
    simp only [List.nil_append]
    rw [scanAux_cons_none pre.data (matchAt_caret1 hsuf),
      scanAux_clean suf.data (pre.data ++ ['^']) hsuf]
    rw [if_neg (by simp)]
    simp
  · rw [aplicarFormatacao, hdata "__",
      show ("__".data : List Char) = ['_', '_'] from rfl,
      show (['_', '_'] : List Char) ++ suf.data = '_' :: '_' :: suf.data from rfl,
      scanAux_clean_prefix pre.data [] ('_' :: '_' :: suf.data) hpre]
    simp only [List.nil_append]
    rw [scanAux_match_some (matchAt_underscore2 hsuf)]
    rw [scanAux_clean suf.data [] hsuf]
    simp only [List.nil_append]
    have hstrip : stripDelims ['_', '_'] = [] := rfl
    rw [hstrip]

/-- C7 witness at concrete inputs. -/
theorem C7_spec_witness :
    (cleanChars "a ".data ∧ cleanChars " b".data) ∧
    (aplicarFormatacao ("a " ++ "**" ++ " b") =
      [⟨("a " ++ "**" ++ " b").data, Fmt.plain⟩] ∧
    aplicarFormatacao ("a " ++ "_" ++ " b") =
      [⟨("a " ++ "_" ++ " b").data, Fmt.plain⟩] ∧
    aplicarFormatacao ("a " ++ "^" ++ " b") =
      [⟨("a " ++ "^" ++ " b").data, Fmt.plain⟩] ∧
    aplicarFormatacao ("a " ++ "__" ++ " b") =
      (if "a ".data.isEmpty then [] else [⟨"a ".data, Fmt.plain⟩]) ++
        ⟨[], Fmt.italic⟩ ::
          (if " b".data.isEmpty then [] else [⟨" b".data, Fmt.plain⟩])) :=
  ⟨⟨by decide, by decide⟩, C7_spec "a " " b" (by decide) (by decide)⟩

/-! ### Claim C10 — failure modes of the pipeline -/

/-- The ExamIndex lookup: the exam code of a (year, subject) pair, `none`
when the year or the subject is absent. -/
def resolveProva (ano m : String) : Option Nat :=
  match provasRegulares.lookup ano with
  | none => none
  | some tbl => tbl.lookup m

/-- A validated filter selection requesting positions `7 7` (a duplicate):
positions nonempty, no quantity filter, no conflict — `validar` accepts. -/
def filtrosQPosDup : FiltrosQuestoes :=
  ⟨["2020"], ["MT"], some [7, 7], 1, 2000, true, false, false, none, false, none⟩

/-- C10 counterexample: a FilterSpec accepted by validation (duplicate
requested positions are not rejected) makes the position stage raise
pandas' `ValueError: Categorical categories must be unique`, aborting the
whole run instead of degrading to a smaller result. -/
theorem C10_counterexample :
    validar filtrosQPosDup = true ∧
    carregarQuestoes [rowPos10] filtrosQPosDup.anos filtrosQPosDup.materias
        (montarFiltros filtrosQPosDup) =
      .error "Categorical categories must be unique" := by
  constructor
  · rfl
  · rfl

theorem filtrarPorPosicao_ok {df : List Row} {s : String}
    (h : (parsePosicoes s).Nodup) : ∃ out, filtrarPorPosicao df s = .ok out := by
  simp only [filtrarPorPosicao]
  by_cases hp : parsePosicoes s = []
  · rw [if_pos hp]
    exact ⟨df, rfl⟩
  · rw [if_neg hp, if_pos h]
    exact ⟨_, rfl⟩

theorem aplicarFiltros_ok {df : List Row} {ano : String} {materias : List String}
    {filtros : Filtros}
    (h : ∀ s, filtros.posicoes = some s → (parsePosicoes s).Nodup) :
    ∃ out w, aplicarFiltros df ano materias filtros = .ok (out, w) := by
  simp only [aplicarFiltros]
  by_cases hpw : (obterProvasEscolhidas ano materias).1 = []
  · rw [if_pos hpw]
    exact ⟨_, _, rfl⟩
  · rw [if_neg hpw]
    by_cases hpos : truthyStr filtros.posicoes
    · rw [if_pos hpos]
      have hs : ∃ s, filtros.posicoes = some s := by
        match hcase : filtros.posicoes with
        | none => rw [hcase] at hpos; simp [truthyStr] at hpos
        | some s => exact ⟨s, rfl⟩
      obtain ⟨s, hs⟩ := hs
      obtain ⟨out, hout⟩ := @filtrarPorPosicao_ok (if filtros.filtrarHabilidade &&
        truthyList filtros.habilidades then
          filtrarPorHabilidade
            (df.filter fun r =>
              materias.contains r.SG_AREA &&
                (List.map Prod.snd (obterProvasEscolhidas ano materias).1).contains r.CO_PROVA)
            (filtros.habilidades.getD [])
        else
          (df.filter fun r =>
            materias.contains r.SG_AREA &&
              (List.map Prod.snd (obterProvasEscolhidas ano materias).1).contains r.CO_PROVA,
            [])).1 s (h s hs)
      rw [hs]
      simp only [Option.getD_some]
      rw [hout]
      exact ⟨_, _, rfl⟩
    · rw [if_neg hpos]
      by_cases hdif : filtros.filtrarDificuldade
      · rw [if_pos hdif]
        exact ⟨_, _, rfl⟩
      · rw [if_neg hdif]
        exact ⟨_, _, rfl⟩

theorem processarAnosLoop_ok {dfAnos : List Row} {materias : List String}
    {filtros : Filtros}
    (h : ∀ s, filtros.posicoes = some s → (parsePosicoes s).Nodup) :
    ∀ anosInt : List Nat,
      ∃ dfs ws, processarAnosLoop dfAnos materias filtros anosInt = .ok (dfs, ws) := by
  intro anosInt
  induction anosInt with
  | nil => exact ⟨[], [], rfl⟩
  | cons ano rest ih =>
    obtain ⟨out, w, hout⟩ := @aplicarFiltros_ok
      (dfAnos.filter (fun r => r.ANO_PROVA == ano)) (toString ano)
      materias filtros h
    obtain ⟨dfs, ws, hloop⟩ := ih
    rw [processarAnosLoop, hout, hloop]
    exact ⟨_, _, rfl⟩

theorem parseAnos_isSome {anos : List String}
    (h : ∀ a ∈ anos, (pyIntParse a).isSome) : ∃ l, parseAnos anos = some l := by
  induction anos with
  | nil => exact ⟨[], rfl⟩
  | cons a rest ih =>
    have ha := h a (by simp)
    obtain ⟨l, hl⟩ := ih (fun x hx => h x (by simp [hx]))
    match hcase : pyIntParse a with
    | none => rw [hcase] at ha; simp at ha
    | some n =>
      rw [parseAnos, hcase, hl]
      exact ⟨_, rfl⟩

/-- C10 (amended): for every table and every form selection accepted by
`validar` whose year strings are numeric (as the form's fixed year options
are) and whose requested position list, if any, is duplicate-free, the run
completes without an exception: every failure mode degrades to a smaller or
empty result plus diagnostics.  A duplicate requested position is the one
exception: it raises from the categorical-ordering step and aborts the run
(see the counterexample). -/
theorem C10_spec (consolidado : List Row) (f : FiltrosQuestoes)
    (hv : validar f = true)
    (hyears : ∀ a ∈ f.anos, (pyIntParse a).isSome)
    (hnodup : ∀ s, (montarFiltros f).posicoes = some s → (parsePosicoes s).Nodup) :
    ∃ res ws, carregarQuestoes consolidado f.anos f.materias (montarFiltros f) =
      .ok (res, ws) := by
  simp only [carregarQuestoes]
  by_cases hc : consolidado = []
  · rw [if_pos hc]
    exact ⟨_, _, rfl⟩
  · rw [if_neg hc]
    obtain ⟨l, hl⟩ := parseAnos_isSome hyears
    rw [hl]
    dsimp only
    by_cases hdf : consolidado.filter (fun r => decide (r.ANO_PROVA ∈ l)) = []
    · rw [if_pos hdf]
      exact ⟨_, _, rfl⟩
    · rw [if_neg hdf]
      obtain ⟨dfs, ws, hloop⟩ := processarAnosLoop_ok hnodup l
      rw [hloop]
      dsimp only
      by_cases hdfs : dfs = []
      · rw [if_pos hdfs]
        exact ⟨_, _, rfl⟩
      · rw [if_neg hdfs]
        exact ⟨_, _, rfl⟩

/-- A validated selection with distinct positions, for the C10 witness. -/
def filtrosQPosOk : FiltrosQuestoes :=
  ⟨["2020"], ["MT"], some [10, 11], 1, 2000, true, false, false, none, false, none⟩

/-- C10 witness at a concrete input. -/
theorem C10_spec_witness :
    (validar filtrosQPosOk = true ∧
      (∀ a ∈ filtrosQPosOk.anos, (pyIntParse a).isSome) ∧
      (∀ s, (montarFiltros filtrosQPosOk).posicoes = some s →
        (parsePosicoes s).Nodup)) ∧
    ∃ res ws, carregarQuestoes [rowPos10, rowPos11] filtrosQPosOk.anos
        filtrosQPosOk.materias (montarFiltros filtrosQPosOk) = .ok (res, ws) :=
  ⟨⟨by decide, by decide, by decide⟩,
   C10_spec [rowPos10, rowPos11] filtrosQPosOk (by decide) (by decide) (by decide)⟩

/-! ### Claim C8 — unresolvable (year, subject) pairs -/

theorem dropDupPos_subset : ∀ (l : List Row) (seen : List Nat), dropDupPos l seen ⊆ l := by
  intro l
  induction l with
  | nil => intro seen; simp [dropDupPos]
  | cons x xs ih =>
    intro seen
    rw [dropDupPos]
    by_cases hx : x.CO_POSICAO ∈ seen
    · rw [if_pos hx]
      exact fun a ha => List.mem_cons_of_mem _ (ih seen ha)
    · rw [if_neg hx]
      intro a ha
      rcases List.mem_cons.mp ha with h | h
      · rw [h]; exact List.mem_cons_self _ _
      · exact List.mem_cons_of_mem _ (ih _ h)

theorem filtrarPorPosicao_subset {df : List Row} {s : String} {out : List Row}
    (h : filtrarPorPosicao df s = .ok out) : out ⊆ df := by
  simp only [filtrarPorPosicao] at h
  by_cases hp : parsePosicoes s = []
  · rw [if_pos hp] at h
    have : df = out := by simpa using h
    rw [← this]
    exact fun a ha => ha
  · rw [if_neg hp] at h
    by_cases hnd : (parsePosicoes s).Nodup
    · rw [if_pos hnd] at h
      have hout : List.insertionSort (posOrdLE (parsePosicoes s))
          (dropDupPos (df.filter (fun r => decide (r.CO_POSICAO ∈ parsePosicoes s))) []) =
            out := by simpa using h
      rw [← hout]
      intro a ha
      have h1 := (List.mem_insertionSort _).mp ha
      have h2 := dropDupPos_subset _ _ h1
      exact List.mem_of_mem_filter h2
    · rw [if_neg hnd] at h
      simp at h

theorem filtrarPorHabilidade_fst_subset (df : List Row) (habs : List Int) :
    (filtrarPorHabilidade df habs).1 ⊆ df := by
  simp only [filtrarPorHabilidade]
  by_cases h0 : df = []
  · rw [if_pos h0]
    exact fun a ha => ha
  · rw [if_neg h0]
    split
    · exact fun a ha => List.mem_of_mem_filter ha
    · exact fun a ha => List.mem_of_mem_filter ha

theorem filtrarPorDificuldade_subset (df : List Row) (a b : ℚ) :
    filtrarPorDificuldade df a b ⊆ df := by
  simp only [filtrarPorDificuldade]
  by_cases h0 : df = []
  · rw [if_pos h0]
    exact fun x hx => hx
  · rw [if_neg h0]
    by_cases hs : a = 0 ∧ b = 2000
    · rw [if_pos hs]
      exact fun x hx => (List.mem_insertionSort _).mp hx
    · rw [if_neg hs]
      by_cases h1 : a = 0
      · rw [if_pos h1]
        exact fun x hx => List.mem_of_mem_filter ((List.mem_insertionSort _).mp hx)
      · rw [if_neg h1]
        by_cases h2 : b = 2000
        · rw [if_pos h2]
          exact fun x hx => List.mem_of_mem_filter ((List.mem_insertionSort _).mp hx)
        · rw [if_neg h2]
          exact fun x hx => List.mem_of_mem_filter ((List.mem_insertionSort _).mp hx)

/-- Rows surviving the per-year stage come from the base subject/exam-code
selection, and the stage's warnings extend the resolution warnings. -/
theorem aplicarFiltros_ok_facts {df : List Row} {ano : String}
    {materias : List String} {filtros : Filtros} {out : List Row} {w : List String}
    (h : aplicarFiltros df ano materias filtros = .ok (out, w)) :
    out ⊆ df.filter (fun r => materias.contains r.SG_AREA &&
      ((obterProvasEscolhidas ano materias).1.map Prod.snd).contains r.CO_PROVA) ∧
    (obterProvasEscolhidas ano materias).2 ⊆ w := by
  simp only [aplicarFiltros] at h
  set dfBase := df.filter (fun r => materias.contains r.SG_AREA &&
    ((obterProvasEscolhidas ano materias).1.map Prod.snd).contains r.CO_PROVA) with hdfBase
  by_cases hpw : (obterProvasEscolhidas ano materias).1 = []
  · rw [if_pos hpw] at h
    simp only [Except.ok.injEq, Prod.mk.injEq] at h
    constructor
    · rw [← h.1]
      exact fun a ha => absurd ha (List.not_mem_nil a)
    · rw [← h.2]
      exact fun a ha => List.mem_append_left _ ha
  · rw [if_neg hpw] at h
    have hhab : (if filtros.filtrarHabilidade && truthyList filtros.habilidades then
        filtrarPorHabilidade dfBase (filtros.habilidades.getD []) else (dfBase, [])).1 ⊆
          dfBase := by
      split
      · exact filtrarPorHabilidade_fst_subset _ _
      · exact fun a ha => ha
    by_cases hpos : truthyStr filtros.posicoes
    · rw [if_pos hpos] at h
      match hfp : filtrarPorPosicao (if filtros.filtrarHabilidade &&
          truthyList filtros.habilidades then
            filtrarPorHabilidade dfBase (filtros.habilidades.getD [])
          else (dfBase, [])).1 (filtros.posicoes.getD "") with
      | .error e =>
        rw [hfp] at h
        cases h
      | .ok res =>
        rw [hfp] at h
        simp only [Except.ok.injEq, Prod.mk.injEq] at h
        constructor
        · rw [← h.1]
          exact fun a ha => hhab (filtrarPorPosicao_subset hfp ha)
        · rw [← h.2]
          exact fun a ha => List.mem_append_left _ ha
    · rw [if_neg hpos] at h
      by_cases hdif : filtros.filtrarDificuldade
      · rw [if_pos hdif] at h
        simp only [Except.ok.injEq, Prod.mk.injEq] at h
        constructor
        · rw [← h.1]
          exact fun a ha => hhab (filtrarPorDificuldade_subset _ _ _ ha)
        · rw [← h.2]
          exact fun a ha => List.mem_append_left _ ha
      · rw [if_neg hdif] at h
        simp only [Except.ok.injEq, Prod.mk.injEq] at h
        constructor
        · rw [← h.1]
          exact hhab
        · rw [← h.2]
          exact fun a ha => List.mem_append_left _ ha

/-- Every per-year frame the loop keeps is the rows of one requested
year's stage, and that stage's warnings are among the loop's warnings. -/
theorem processarAnosLoop_ok_facts {dfAnos : List Row} {materias : List String}
    {filtros : Filtros} :
    ∀ {anosInt : List Nat} {dfs : List (List Row)} {ws : List String},
      processarAnosLoop dfAnos materias filtros anosInt = .ok (dfs, ws) →
      (∀ l ∈ dfs, ∃ ano ∈ anosInt, ∃ w,
        aplicarFiltros (dfAnos.filter (fun r => r.ANO_PROVA == ano)) (toString ano)
          materias filtros = .ok (l, w)) ∧
      (∀ ano ∈ anosInt, ∃ dfF w,
        aplicarFiltros (dfAnos.filter (fun r => r.ANO_PROVA == ano)) (toString ano)
          materias filtros = .ok (dfF, w) ∧ w ⊆ ws) := by
  intro anosInt
  induction anosInt with
  | nil =>
    intro dfs ws h
    rw [processarAnosLoop] at h
    simp only [Except.ok.injEq, Prod.mk.injEq] at h
    constructor
    · intro l hl
      rw [← h.1] at hl
      exact absurd hl (List.not_mem_nil l)
    · intro ano hano
      exact absurd hano (List.not_mem_nil ano)
  | cons ano rest ih =>
    intro dfs ws h
    rw [processarAnosLoop] at h
    match h1 : aplicarFiltros (dfAnos.filter (fun r => r.ANO_PROVA == ano))
        (toString ano) materias filtros with
    | .error e => rw [h1] at h; cases h
    | .ok (dfF, w) =>
      rw [h1] at h
      match h2 : processarAnosLoop dfAnos materias filtros rest with
      | .error e => rw [h2] at h; cases h
      | .ok (dfs0, ws0) =>
        rw [h2] at h
        simp only [Except.ok.injEq, Prod.mk.injEq] at h
        obtain ⟨hdfs, hws⟩ := h
        obtain ⟨ihmem, ihano⟩ := ih h2
        constructor
        · intro l hl
          rw [← hdfs] at hl
          by_cases hF : dfF = []
          · rw [if_pos hF] at hl
            obtain ⟨ano2, hano2, w2, hw2⟩ := ihmem l hl
            exact ⟨ano2, List.mem_cons_of_mem _ hano2, w2, hw2⟩
          · rw [if_neg hF] at hl
            rcases List.mem_cons.mp hl with hl1 | hl1
            · exact ⟨ano, List.mem_cons_self _ _, w, hl1 ▸ h1⟩
            · obtain ⟨ano2, hano2, w2, hw2⟩ := ihmem l hl1
              exact ⟨ano2, List.mem_cons_of_mem _ hano2, w2, hw2⟩
        · intro ano2 hano2
          rcases List.mem_cons.mp hano2 with h3 | h3
          · refine ⟨dfF, w, h3 ▸ h1, ?_⟩
            rw [← hws]
            exact fun x hx => List.mem_append_left _ hx
          · obtain ⟨dfF2, w2, hw2, hsub⟩ := ihano ano2 h3
            refine ⟨dfF2, w2, hw2, ?_⟩
            rw [← hws]
            exact fun x hx => List.mem_append_right _ (hsub hx)

theorem aplicarFiltrosGlobais_subset (df : List Row) (filtros : Filtros) :
    aplicarFiltrosGlobais df filtros ⊆ df := by
  simp only [aplicarFiltrosGlobais]
  by_cases h0 : df = []
  · rw [if_pos h0]
    exact fun x hx => hx
  · rw [if_neg h0]
    by_cases hq : filtros.filtrarQuantidade && truthyNat filtros.quantidade
    · rw [if_pos hq]
      by_cases hlen : filtros.quantidade.getD 0 < df.length
      · rw [if_pos hlen]
        by_cases hpos : truthyStr filtros.posicoes
        · rw [if_pos hpos]
          exact fun x hx => List.take_subset _ _ hx
        · rw [if_neg hpos]
          exact fun x hx => (List.mem_insertionSort _).mp (List.take_subset _ _ hx)
      · rw [if_neg hlen]
        exact fun x hx => hx
    · rw [if_neg hq]
      exact fun x hx => hx

theorem numerar_snd_mem {df : List Row} {p : Nat × Row} (h : p ∈ numerar df) :
    p.2 ∈ df := by
  simp only [numerar, List.mem_map] at h
  obtain ⟨q, hq, hpq⟩ := h
  have h2 : q.2 ∈ (df.enum.map Prod.snd) := List.mem_map_of_mem Prod.snd hq
  rw [List.enum_map_snd] at h2
  have : p.2 = q.2 := by rw [← hpq]
  rw [this]
  exact h2

theorem obterProvas_fold_mem {tbl : List (String × Nat)} {ano : String}
    {m : String} {c : Nat} :
    ∀ (ms : List String) (acc : List (String × Nat) × List String),
      (m, c) ∈ (ms.foldl (provaStep tbl ano) acc).1 →
      (m, c) ∈ acc.1 ∨ tbl.lookup m = some c := by
  intro ms
  induction ms with
  | nil => intro acc h; exact Or.inl h
  | cons m1 rest ih =>
    intro acc h
    rw [List.foldl_cons] at h
    rcases ih _ h with h1 | h1
    · simp only [provaStep] at h1
      match hm1 : tbl.lookup m1 with
      | some c1 =>
        rw [hm1] at h1
        dsimp only at h1
        rcases List.mem_append.mp h1 with h2 | h2
        · exact Or.inl h2
        · have h3 : m = m1 ∧ c = c1 := by simpa using h2
          refine Or.inr ?_
          rw [h3.1, h3.2]
          exact hm1
      | none =>
        rw [hm1] at h1
        dsimp only at h1
        exact Or.inl h1
    · exact Or.inr h1

theorem mem_obterProvas {ano : String} {materias : List String} {m : String} {c : Nat}
    (h : (m, c) ∈ (obterProvasEscolhidas ano materias).1) :
    resolveProva ano m = some c := by
  simp only [obterProvasEscolhidas] at h
  simp only [resolveProva]
  match hl : provasRegulares.lookup ano with
  | none =>
    rw [hl] at h
    simp at h
  | some tbl =>
    rw [hl] at h
    dsimp only at h
    rcases obterProvas_fold_mem materias ([], []) h with h1 | h1
    · simp at h1
    · exact h1

theorem fold_provaStep_warn_mono {tbl : List (String × Nat)} {ano : String} :
    ∀ (ms : List String) (acc : List (String × Nat) × List String),
      acc.2 ⊆ (ms.foldl (provaStep tbl ano) acc).2 := by
  intro ms
  induction ms with
  | nil => intro acc x hx; exact hx
  | cons m1 rest ih =>
    intro acc x hx
    rw [List.foldl_cons]
    refine ih _ ?_
    simp only [provaStep]
    match hm1 : tbl.lookup m1 with
    | some c1 => exact hx
    | none => exact List.mem_append_left _ hx

theorem fold_provaStep_warn_of_missing {tbl : List (String × Nat)} {ano m0 : String}
    (hm : tbl.lookup m0 = none) :
    ∀ (ms : List String) (acc : List (String × Nat) × List String), m0 ∈ ms →
      ("Matéria " ++ m0 ++ " não encontrada para o ano " ++ ano) ∈
        (ms.foldl (provaStep tbl ano) acc).2 := by
  intro ms
  induction ms with
  | nil => intro acc h; exact absurd h (List.not_mem_nil m0)
  | cons m1 rest ih =>
    intro acc hmem
    rw [List.foldl_cons]
    rcases List.mem_cons.mp hmem with h1 | h1
    · refine fold_provaStep_warn_mono rest _ ?_
      simp only [provaStep, ← h1, hm]
      exact List.mem_append_right _ (by simp)
    · exact ih _ h1

theorem obterProvas_warning {ano : String} {materias : List String} {m0 : String}
    (hm0 : m0 ∈ materias) (hunres : resolveProva ano m0 = none) :
    ("Ano " ++ ano ++ " não encontrado em provas_regulares") ∈
        (obterProvasEscolhidas ano materias).2 ∨
    ("Matéria " ++ m0 ++ " não encontrada para o ano " ++ ano) ∈
        (obterProvasEscolhidas ano materias).2 := by
  simp only [obterProvasEscolhidas]
  simp only [resolveProva] at hunres
  match hl : provasRegulares.lookup ano with
  | none =>
    dsimp only
    exact Or.inl (by simp)
  | some tbl =>
    rw [hl] at hunres
    dsimp only at hunres ⊢
    exact Or.inr (fold_provaStep_warn_of_missing hunres materias ([], []) hm0)

/-- A row of an unresolvable (year, subject) pair carries no resolved exam
code, provided the table's exam codes identify their (year, subject). -/
theorem pair_contains_false {materias : List String} {n0 : Nat} {m0 : String} {r : Row}
    (hconsr : ∀ y m c, resolveProva y m = some c → r.CO_PROVA = c →
      toString r.ANO_PROVA = y ∧ r.SG_AREA = m)
    (hm : r.SG_AREA = m0)
    (hunres : resolveProva (toString n0) m0 = none) :
    (((obterProvasEscolhidas (toString n0) materias).1.map Prod.snd).contains
      r.CO_PROVA) = false := by
  cases hx : ((obterProvasEscolhidas (toString n0) materias).1.map Prod.snd).contains
      r.CO_PROVA with
  | false => rfl
  | true =>
    exfalso
    have hmem : r.CO_PROVA ∈ (obterProvasEscolhidas (toString n0) materias).1.map
        Prod.snd := by
      have := hx
      simp only [List.contains] at this
      exact List.elem_iff.mp this
    obtain ⟨p, hp, hpeq⟩ := List.mem_map.mp hmem
    have hres : resolveProva (toString n0) p.1 = some p.2 := mem_obterProvas hp
    have hcr := hconsr _ _ _ hres hpeq.symm
    have hm0m : p.1 = m0 := by rw [← hcr.2, hm]
    rw [hm0m] at hres
    rw [hunres] at hres
    cases hres

theorem aplicarFiltros_filter_congr {df : List Row} {P : Row → Bool} {ano : String}
    {materias : List String} {filtros : Filtros}
    (hP : ∀ r ∈ df, P r = false →
      (materias.contains r.SG_AREA &&
        ((obterProvasEscolhidas ano materias).1.map Prod.snd).contains r.CO_PROVA)
        = false) :
    aplicarFiltros (df.filter P) ano materias filtros =
      aplicarFiltros df ano materias filtros := by
  have hbase : (df.filter P).filter (fun r => materias.contains r.SG_AREA &&
      ((obterProvasEscolhidas ano materias).1.map Prod.snd).contains r.CO_PROVA) =
      df.filter (fun r => materias.contains r.SG_AREA &&
      ((obterProvasEscolhidas ano materias).1.map Prod.snd).contains r.CO_PROVA) := by
    rw [List.filter_filter]
    apply List.filter_congr
    intro r hr
    match hPr : P r with
    | true => simp
    | false => rw [Bool.and_false, hP r hr hPr]
  simp only [aplicarFiltros, hbase]

theorem processarAnosLoop_congr {dfA dfB : List Row} {materias : List String}
    {filtros : Filtros} :
    ∀ {anosInt : List Nat},
      (∀ ano ∈ anosInt,
        aplicarFiltros (dfA.filter (fun r => r.ANO_PROVA == ano)) (toString ano)
            materias filtros =
          aplicarFiltros (dfB.filter (fun r => r.ANO_PROVA == ano)) (toString ano)
            materias filtros) →
      processarAnosLoop dfA materias filtros anosInt =
        processarAnosLoop dfB materias filtros anosInt := by
  intro anosInt
  induction anosInt with
  | nil => intro _; rfl
  | cons ano rest ih =>
    intro h
    rw [processarAnosLoop, processarAnosLoop, h ano (List.mem_cons_self _ _),
      ih (fun a ha => h a (List.mem_cons_of_mem _ ha))]

theorem parseAnos_mem :
    ∀ {anos : List String} {l : List Nat}, parseAnos anos = some l →
      ∀ {a : String} {n : Nat}, a ∈ anos → pyIntParse a = some n → n ∈ l := by
  intro anos
  induction anos with
  | nil =>
    intro l h a n ha
    exact absurd ha (List.not_mem_nil a)
  | cons a0 rest ih =>
    intro l h a n ha hn
    rw [parseAnos] at h
    match h0 : pyIntParse a0, h1 : parseAnos rest with
    | none, _ => rw [h0] at h; cases h
    | some n0, none => rw [h0, h1] at h; cases h
    | some n0, some ns =>
      rw [h0, h1] at h
      dsimp only at h
      have hl : l = n0 :: ns := by simpa using h.symm
      subst hl
      rcases List.mem_cons.mp ha with h2 | h2
      · rw [h2] at hn
        rw [h0] at hn
        have : n0 = n := by simpa using hn
        rw [← this]
        exact List.mem_cons_self _ _
      · exact List.mem_cons_of_mem _ (ih h1 h2 hn)

theorem filter_comm' (p q : Row → Bool) (l : List Row) :
    (l.filter p).filter q = (l.filter q).filter p := by
  rw [List.filter_filter, List.filter_filter]
  exact List.filter_congr (fun r _ => Bool.and_comm _ _)

/-- Filters requesting the duplicate position list "7 7", used by the C8
counterexample. -/
def filtrosPosDup77 : Filtros := ⟨some "7 7", 1, 2000, false, none, false, false, none⟩

/-- C8 counterexample: a run requesting years {2020, 1999} — so the pair
(1999, MT) is unresolvable — together with a duplicate position list
aborts with the categorical error before any rows are returned: the
unresolvable pair does not make the run abort-proof. -/
theorem C8_counterexample :
    resolveProva "1999" "MT" = none ∧
    "1999" ∈ (["2020", "1999"] : List String) ∧
    carregarQuestoes [rowPos10] ["2020", "1999"] ["MT"] filtrosPosDup77 =
      .error "Categorical categories must be unique" :=
  ⟨rfl, by decide, rfl⟩

/-- C8 (amended): in a run whose requested position list (if any) is
duplicate-free, over a table whose exam codes identify their (year,
subject), an unresolvable requested pair `(y0, m0)` contributes zero rows,
its resolution warning is recorded, the run completes without aborting,
and the rows of the other (resolvable) pairs are unaffected: deleting the
unresolvable pair's rows from the table leaves the run's output unchanged. -/
theorem C8_spec (consolidado : List Row) (anos : List String) (materias : List String)
    (filtros : Filtros) (y0 m0 : String) (n0 : Nat)
    (hy0 : y0 ∈ anos) (hparse0 : pyIntParse y0 = some n0) (hm0 : m0 ∈ materias)
    (hunres : resolveProva (toString n0) m0 = none)
    (hyears : ∀ a ∈ anos, (pyIntParse a).isSome)
    (hnodup : ∀ s, filtros.posicoes = some s → (parsePosicoes s).Nodup)
    (hcons : ∀ r ∈ consolidado, ∀ y m c, resolveProva y m = some c →
      r.CO_PROVA = c → toString r.ANO_PROVA = y ∧ r.SG_AREA = m)
    (hne : ∃ r ∈ consolidado, (∃ a ∈ anos, pyIntParse a = some r.ANO_PROVA) ∧
      ¬(r.ANO_PROVA = n0 ∧ r.SG_AREA = m0)) :
    ∃ res ws, carregarQuestoes consolidado anos materias filtros = .ok (res, ws) ∧
      (∀ p ∈ res, ¬(p.2.ANO_PROVA = n0 ∧ p.2.SG_AREA = m0)) ∧
      (("Ano " ++ toString n0 ++ " não encontrado em provas_regulares") ∈ ws ∨
       ("Matéria " ++ m0 ++ " não encontrada para o ano " ++ toString n0) ∈ ws) ∧
      carregarQuestoes consolidado anos materias filtros =
        carregarQuestoes (consolidado.filter
          (fun r => !(r.ANO_PROVA == n0 && r.SG_AREA == m0))) anos materias filtros := by
  obtain ⟨r0, hr0mem, ⟨a0, ha0, ha0p⟩, hr0P⟩ := hne
  obtain ⟨l, hl⟩ := parseAnos_isSome hyears
  have hn0l : n0 ∈ l := parseAnos_mem hl hy0 hparse0
  have hr0l : r0.ANO_PROVA ∈ l := parseAnos_mem hl ha0 ha0p
  set P : Row → Bool := fun r => !(r.ANO_PROVA == n0 && r.SG_AREA == m0) with hPdef
  have hPr0 : P r0 = true := by
    have hx : (r0.ANO_PROVA == n0 && r0.SG_AREA == m0) = false := by
      by_cases h1 : r0.ANO_PROVA = n0
      · by_cases h2 : r0.SG_AREA = m0
        · exact absurd ⟨h1, h2⟩ hr0P
        · simp [h2]
      · simp [h1]
    rw [hPdef]
    dsimp only
    rw [hx]
    rfl
  have hPfalse_pair : ∀ r : Row, P r = false →
      r.ANO_PROVA = n0 ∧ r.SG_AREA = m0 := by
    intro r hPf
    have : (r.ANO_PROVA == n0 && r.SG_AREA == m0) = true := by
      simpa [hPdef] using hPf
    rw [Bool.and_eq_true] at this
    exact ⟨by simpa using this.1, by simpa using this.2⟩
  set dfAnos := consolidado.filter (fun r => decide (r.ANO_PROVA ∈ l)) with hdfAnos
  have hr0df : r0 ∈ dfAnos := by
    rw [hdfAnos]
    exact List.mem_filter.mpr ⟨hr0mem, by simpa using hr0l⟩
  have hcons0 : consolidado ≠ [] := by
    intro hc
    rw [hc] at hr0mem
    exact absurd hr0mem (List.not_mem_nil r0)
  have hdfne : dfAnos ≠ [] := by
    intro hc
    rw [hc] at hr0df
    exact absurd hr0df (List.not_mem_nil r0)
  have hr0mem' : r0 ∈ consolidado.filter P := List.mem_filter.mpr ⟨hr0mem, hPr0⟩
  have hconsne' : consolidado.filter P ≠ [] := by
    intro hc
    rw [hc] at hr0mem'
    exact absurd hr0mem' (List.not_mem_nil r0)
  have hdfAnos' : (consolidado.filter P).filter (fun r => decide (r.ANO_PROVA ∈ l)) =
      dfAnos.filter P := by
    rw [hdfAnos]
    exact filter_comm' P _ consolidado
  have hr0df' : r0 ∈ dfAnos.filter P := List.mem_filter.mpr ⟨hr0df, hPr0⟩
  have hdfne' : dfAnos.filter P ≠ [] := by
    intro hc
    rw [hc] at hr0df'
    exact absurd hr0df' (List.not_mem_nil r0)
  have hyearEq : ∀ ano ∈ l,
      aplicarFiltros ((dfAnos.filter P).filter (fun r => r.ANO_PROVA == ano))
          (toString ano) materias filtros =
        aplicarFiltros (dfAnos.filter (fun r => r.ANO_PROVA == ano))
          (toString ano) materias filtros := by
    intro ano _
    rw [filter_comm' P (fun r => r.ANO_PROVA == ano) dfAnos]
    by_cases hano : ano = n0
    · subst hano
      apply aplicarFiltros_filter_congr
      intro r hr hPf
      have hpair := hPfalse_pair r hPf
      have hrmem : r ∈ consolidado :=
        List.mem_of_mem_filter (List.mem_of_mem_filter hr)
      have hfalse := @pair_contains_false materias _ m0 r (hcons r hrmem) hpair.2 hunres
      rw [hfalse, Bool.and_false]
    · have hid : (dfAnos.filter (fun r => r.ANO_PROVA == ano)).filter P =
          dfAnos.filter (fun r => r.ANO_PROVA == ano) := by
        rw [List.filter_eq_self]
        intro r hr
        have hrano : r.ANO_PROVA = ano := by
          simpa using List.of_mem_filter hr
        have hbne : (r.ANO_PROVA == n0) = false := by
          apply beq_eq_false_iff_ne.mpr
          rw [hrano]
          exact hano
        simp [hPdef, hbne]
      rw [hid]
  have hloopEq : processarAnosLoop (dfAnos.filter P) materias filtros l =
      processarAnosLoop dfAnos materias filtros l :=
    processarAnosLoop_congr hyearEq
  obtain ⟨dfs, ws0, hloop⟩ :=
    @processarAnosLoop_ok dfAnos materias filtros hnodup l
  obtain ⟨memFacts, anoFacts⟩ := processarAnosLoop_ok_facts hloop
  obtain ⟨dfF0, w0, hapl0, hw0sub⟩ := anoFacts n0 hn0l
  have hwarn0 := (aplicarFiltros_ok_facts hapl0).2
  have hwarnpair :
      ("Ano " ++ toString n0 ++ " não encontrado em provas_regulares") ∈ ws0 ∨
      ("Matéria " ++ m0 ++ " não encontrada para o ano " ++ toString n0) ∈ ws0 := by
    rcases @obterProvas_warning (toString n0) materias m0 hm0 hunres with h | h
    · exact Or.inl (hw0sub (hwarn0 h))
    · exact Or.inr (hw0sub (hwarn0 h))
  have hnopair : ∀ x ∈ dfs.flatten, ¬(x.ANO_PROVA = n0 ∧ x.SG_AREA = m0) := by
    intro x hx
    obtain ⟨lx, hlx, hxmem⟩ := List.mem_flatten.mp hx
    obtain ⟨ano, hanol, w, hapl⟩ := memFacts lx hlx
    have hxbase := (aplicarFiltros_ok_facts hapl).1 hxmem
    have hxyear : x.ANO_PROVA = ano := by
      simpa using List.of_mem_filter (List.mem_of_mem_filter hxbase)
    rintro ⟨hxn0, hxm0⟩
    have hanon0 : ano = n0 := by rw [← hxyear, hxn0]
    subst hanon0
    have hxP := List.of_mem_filter hxbase
    have hxcons : x ∈ consolidado :=
      List.mem_of_mem_filter
        (List.mem_of_mem_filter (List.mem_of_mem_filter hxbase))
    have hfalse := @pair_contains_false materias _ m0 x (hcons x hxcons) hxm0 hunres
    rw [Bool.and_eq_true] at hxP
    rw [hfalse] at hxP
    exact absurd hxP.2 (by simp)
  have hrun : carregarQuestoes consolidado anos materias filtros =
      (if dfs = [] then .ok ([], ws0)
       else .ok (numerar (aplicarFiltrosGlobais dfs.flatten filtros), ws0)) := by
    simp only [carregarQuestoes]
    rw [if_neg hcons0, hl]
    dsimp only
    rw [← hdfAnos, if_neg hdfne, hloop]
  have hmain : carregarQuestoes consolidado anos materias filtros =
      carregarQuestoes (consolidado.filter P) anos materias filtros := by
    have hrun' : carregarQuestoes (consolidado.filter P) anos materias filtros =
        (if dfs = [] then .ok ([], ws0)
         else .ok (numerar (aplicarFiltrosGlobais dfs.flatten filtros), ws0)) := by
      simp only [carregarQuestoes]
      rw [if_neg hconsne', hl]
      dsimp only
      rw [hdfAnos', if_neg hdfne', hloopEq, hloop]
    rw [hrun, hrun']
  by_cases hdfs : dfs = []
  · rw [if_pos hdfs] at hrun
    refine ⟨[], ws0, hrun, ?_, hwarnpair, hmain⟩
    intro p hp
    exact absurd hp (List.not_mem_nil p)
  · rw [if_neg hdfs] at hrun
    refine ⟨numerar (aplicarFiltrosGlobais dfs.flatten filtros), ws0, hrun, ?_,
      hwarnpair, hmain⟩
    intro p hp
    have h1 := numerar_snd_mem hp
    have h2 := aplicarFiltrosGlobais_subset dfs.flatten filtros h1
    exact hnopair p.2 h2

theorem mem_of_lookup_eq_some' {α : Type} {l : List (String × α)} {k : String}
    {b : α} (h : l.lookup k = some b) : (k, b) ∈ l := by
  obtain ⟨l1, l2, hsplit, _⟩ := List.lookup_eq_some_iff.mp h
  rw [hsplit]
  exact List.mem_append_right _ (List.mem_cons_self _ _)

/-- No (year, subject) pair resolves to the exam code 9999. -/
theorem resolveProva_ne_9999 (y m : String) : resolveProva y m ≠ some 9999 := by
  intro h
  simp only [resolveProva] at h
  match hl : provasRegulares.lookup y with
  | none => rw [hl] at h; cases h
  | some tbl =>
    rw [hl] at h
    dsimp only at h
    have hmem := mem_of_lookup_eq_some' hl
    have hmem2 := mem_of_lookup_eq_some' h
    simp only [provasRegulares, List.mem_cons, List.not_mem_nil, or_false] at hmem
    rcases hmem with h1 | h1 | h1 | h1 | h1 | h1 | h1 | h1 |
      h1 | h1 | h1 | h1 | h1 | h1 | h1 | h1 <;>
    · rw [Prod.mk.injEq] at h1
      obtain ⟨h1a, h1b⟩ := h1
      subst h1b
      simp at hmem2

/-- A row of a resolvable year tagged with an exam code the index never
assigns; its (year, subject) pair can never be matched by a resolved code. -/
def rowCode9999 : Row := ⟨2020, "MT", 9999, 10, some 1, 5, "A"⟩

/-- Filters with no optional stage active, for the C8 witness. -/
def filtrosSemPos : Filtros := ⟨none, 0, 2000, false, none, true, false, none⟩

/-- C8 witness at a concrete input: years {2020, 1999} with (1999, MT)
unresolvable. -/
theorem C8_spec_witness :
    ("1999" ∈ (["2020", "1999"] : List String) ∧
      pyIntParse "1999" = some 1999 ∧ "MT" ∈ (["MT"] : List String) ∧
      resolveProva (toString 1999) "MT" = none ∧
      (∀ a ∈ (["2020", "1999"] : List String), (pyIntParse a).isSome) ∧
      (∀ s, filtrosSemPos.posicoes = some s → (parsePosicoes s).Nodup) ∧
      (∀ r ∈ [rowCode9999], ∀ y m c, resolveProva y m = some c →
        r.CO_PROVA = c → toString r.ANO_PROVA = y ∧ r.SG_AREA = m) ∧
      (∃ r ∈ [rowCode9999], (∃ a ∈ (["2020", "1999"] : List String),
        pyIntParse a = some r.ANO_PROVA) ∧ ¬(r.ANO_PROVA = 1999 ∧ r.SG_AREA = "MT"))) ∧
    (∃ res ws, carregarQuestoes [rowCode9999] ["2020", "1999"] ["MT"] filtrosSemPos =
        .ok (res, ws) ∧
      (∀ p ∈ res, ¬(p.2.ANO_PROVA = 1999 ∧ p.2.SG_AREA = "MT")) ∧
      (("Ano " ++ toString 1999 ++ " não encontrado em provas_regulares") ∈ ws ∨
       ("Matéria " ++ "MT" ++ " não encontrada para o ano " ++ toString 1999) ∈ ws) ∧
      carregarQuestoes [rowCode9999] ["2020", "1999"] ["MT"] filtrosSemPos =
        carregarQuestoes ([rowCode9999].filter
          (fun r => !(r.ANO_PROVA == 1999 && r.SG_AREA == "MT")))
          ["2020", "1999"] ["MT"] filtrosSemPos) := by
  have hcons : ∀ r ∈ [rowCode9999], ∀ y m c, resolveProva y m = some c →
      r.CO_PROVA = c → toString r.ANO_PROVA = y ∧ r.SG_AREA = m := by
    intro r hr y m c hres hcode
    have hr9 : r = rowCode9999 := by simpa using hr
    exfalso
    rw [hr9] at hcode
    have hc : c = 9999 := hcode.symm
    rw [hc] at hres
    exact resolveProva_ne_9999 y m hres
  have hnodup : ∀ s, filtrosSemPos.posicoes = some s → (parsePosicoes s).Nodup := by
    intro s h
    simp [filtrosSemPos] at h
  refine ⟨⟨by decide, by decide, by decide, by decide, by decide, hnodup, hcons,
    ⟨rowCode9999, by decide, ⟨"2020", by decide, by decide⟩, by decide⟩⟩, ?_⟩
  exact C8_spec [rowCode9999] ["2020", "1999"] ["MT"] filtrosSemPos "1999" "MT" 1999
    (by decide) (by decide) (by decide) (by decide) (by decide) hnodup hcons
    ⟨rowCode9999, by decide, ⟨"2020", by decide, by decide⟩, by decide⟩

/-! ### Claim C1 — the concrete two-year capped scenario -/

/-- The C1 filter spec: quantity cap 10 and every optional stage inactive
(position `None`, skill filter off, difficulty at its always-on default
sentinels `[0, 2000]`). -/
def filtrosC1 : Filtros := ⟨none, 0, 2000, true, some 10, true, false, none⟩

/-- A two-year table in the C1 scenario: 50 MT rows for 2020 (all of
difficulty 1000), 50 MT rows for 2021 (all of difficulty 0), plus one LC
row per year.  Every 2021 MT difficulty is below every 2020 MT
difficulty. -/
def tabelaC1 : List Row :=
  ((List.range 50).map (fun i => ⟨2020, "MT", 587, 1 + i, some 1, 1000, "A"⟩)) ++
  [⟨2020, "LC", 577, 200, some 1, 1, "B"⟩] ++
  ((List.range 50).map (fun i => ⟨2021, "MT", 899, 1 + i, some 1, 0, "A"⟩)) ++
  [⟨2021, "LC", 889, 200, some 1, 1, "B"⟩]

/-- The rows the C1 run on `tabelaC1` actually returns: ten year-2020 MT
rows of difficulty 1000 each. -/
def resC1 : List (Nat × Row) :=
  (List.range 10).map
    (fun i => (1 + i, ⟨2020, "MT", 587, 1 + i, some 1, 1000, "A"⟩))

/-- `min_dif = 0` with `max_dif = 2000` is the sentinel pair under which the
difficulty stage only sorts ascending by difficulty. -/
theorem filtrarPorDificuldade_default (df : List Row) :
    filtrarPorDificuldade df 0 2000 = List.insertionSort difLE df := by
  by_cases h : df = []
  · subst h
    rfl
  · unfold filtrarPorDificuldade
    rw [if_neg h, if_pos ⟨rfl, rfl⟩]

/-- Evaluation of one year's `_aplicar_filtros` stage under the C1-style
filter state: subject list `["MT"]`, resolvable exam code, no skill or
position filter, default difficulty interval.  The stage reduces to the
base subject/exam selection followed by the ascending difficulty sort. -/
theorem aplicarFiltros_eval (df : List Row) (ano : String) (prova : Nat)
    (filtros : Filtros)
    (hob : obterProvasEscolhidas ano ["MT"] = ([("MT", prova)], []))
    (hhab : filtros.filtrarHabilidade = false)
    (hpos : truthyStr filtros.posicoes = false)
    (hdif : filtros.filtrarDificuldade = true)
    (hmin : filtros.minDif = 0) (hmax : filtros.maxDif = 2000) :
    aplicarFiltros df ano ["MT"] filtros =
      .ok (List.insertionSort difLE (df.filter (fun r =>
        (["MT"] : List String).contains r.SG_AREA &&
          ([prova] : List Nat).contains r.CO_PROVA)), []) := by
  simp only [aplicarFiltros, hob]
  rw [if_neg (List.cons_ne_nil _ _), hhab, hpos, hdif]
  simp only [Bool.false_and, Bool.false_eq_true, if_false, eq_self_iff_true, if_true,
    List.map_cons, List.map_nil, List.nil_append]
  rw [hmin, hmax, filtrarPorDificuldade_default]

/-- Under the per-year exam-code consistency of the C1 scenario, the base
subject/exam selection of a year equals the plain subject-and-year filter
of the consolidated table. -/
theorem base_eq_mtYear {cons : List Row} (ano prova : Nat)
    (hcode : ∀ r ∈ cons, r.ANO_PROVA = ano → r.SG_AREA = "MT" → r.CO_PROVA = prova) :
    (cons.filter (fun r => r.ANO_PROVA == ano)).filter
      (fun r => (["MT"] : List String).contains r.SG_AREA &&
        ([prova] : List Nat).contains r.CO_PROVA) =
    cons.filter (fun r => r.SG_AREA == "MT" && r.ANO_PROVA == ano) := by
  rw [List.filter_filter]
  apply List.filter_congr
  intro r hr
  by_cases hano : r.ANO_PROVA = ano
  · by_cases hsg : r.SG_AREA = "MT"
    · have hcp := hcode r hr hano hsg
      simp [hano, hsg, hcp]
    · have h1 : (r.SG_AREA == "MT") = false := beq_eq_false_iff_ne.mpr hsg
      have h2 : (["MT"] : List String).contains r.SG_AREA = false := by
        simpa using hsg
      rw [h2, h1]
      simp
  · have h1 : (r.ANO_PROVA == ano) = false := beq_eq_false_iff_ne.mpr hano
    rw [h1]
    simp

/-- The display numbers produced by `numerar` are `1..N`. -/
theorem numerar_map_fst (df : List Row) :
    (numerar df).map Prod.fst = List.range' 1 df.length := by
  simp only [numerar, List.map_map]
  have h1 : ((Prod.fst : Nat × Row → Nat) ∘ fun p : Nat × Row => (p.1 + 1, p.2)) =
      ((fun n : Nat => 1 + n) ∘ (Prod.fst : Nat × Row → Nat)) :=
    funext fun p => Nat.add_comm p.1 1
  rw [h1, ← List.map_map, List.enum_map_fst, List.range'_eq_map_range]

/-- `numerar` does not change the row sequence. -/
theorem numerar_map_snd (df : List Row) : (numerar df).map Prod.snd = df := by
  simp only [numerar, List.map_map]
  have h1 : ((Prod.snd : Nat × Row → Row) ∘ fun p : Nat × Row => (p.1 + 1, p.2)) =
      (Prod.snd : Nat × Row → Row) := rfl
  rw [h1, List.enum_map_snd]

/-- `numerar` preserves length. -/
theorem numerar_length (df : List Row) : (numerar df).length = df.length := by
  simp [numerar]

/-- When the first block of a concatenation holds only year-2020 rows and
the second only year-2021 rows, every row among the first `k` (`k` at most
the first block's size) of the (year, difficulty) sort is a year-2020 row:
the year key dominates, so no 2021 row can enter the cap. -/
theorem all_year_2020_take {l20 l21 : List Row} {k : Nat}
    (h20 : ∀ r ∈ l20, r.ANO_PROVA = 2020)
    (h21 : ∀ r ∈ l21, r.ANO_PROVA = 2021)
    (hlen : k ≤ l20.length) :
    ∀ b ∈ (List.insertionSort anoDifLE (l20 ++ l21)).take k, b.ANO_PROVA = 2020 := by
  intro b hb
  by_contra hne
  have hbs : b ∈ List.insertionSort anoDifLE (l20 ++ l21) := List.mem_of_mem_take hb
  have hbmem : b ∈ l20 ++ l21 :=
    (List.perm_insertionSort anoDifLE (l20 ++ l21)).mem_iff.mp hbs
  have hb21 : b.ANO_PROVA = 2021 := by
    rcases List.mem_append.mp hbmem with h | h
    · exact absurd (h20 b h) hne
    · exact h21 b h
  obtain ⟨s, t, hst⟩ := List.append_of_mem hb
  have hsorted : List.insertionSort anoDifLE (l20 ++ l21) =
      s ++ b :: (t ++ (List.insertionSort anoDifLE (l20 ++ l21)).drop k) := by
    conv_lhs => rw [← List.take_append_drop k (List.insertionSort anoDifLE (l20 ++ l21))]
    rw [hst]
    simp [List.append_assoc]
  have hpw : List.Pairwise anoDifLE
      (s ++ b :: (t ++ (List.insertionSort anoDifLE (l20 ++ l21)).drop k)) := by
    rw [← hsorted]
    exact List.sorted_insertionSort anoDifLE (l20 ++ l21)
  have hpw2 := (List.pairwise_append.mp hpw).2.1
  have hrest := (List.pairwise_cons.mp hpw2).1
  have hcount : (l20 ++ l21).countP (fun r => r.ANO_PROVA == 2020) = l20.length := by
    rw [List.countP_append]
    have e1 : l20.countP (fun r => r.ANO_PROVA == 2020) = l20.length :=
      List.countP_eq_length.mpr (fun r hr => by simp [h20 r hr])
    have e2 : l21.countP (fun r => r.ANO_PROVA == 2020) = 0 :=
      List.countP_eq_zero.mpr (fun r hr => by simp [h21 r hr])
    rw [e1, e2]
    omega
  have hcount2 : (s ++ b :: (t ++ (List.insertionSort anoDifLE (l20 ++ l21)).drop k)).countP
      (fun r => r.ANO_PROVA == 2020) = l20.length := by
    rw [← hsorted]
    exact ((List.perm_insertionSort anoDifLE (l20 ++ l21)).countP_eq _).trans hcount
  have hz : (b :: (t ++ (List.insertionSort anoDifLE (l20 ++ l21)).drop k)).countP
      (fun r => r.ANO_PROVA == 2020) = 0 := by
    rw [List.countP_eq_zero]
    intro x hx hc
    have hx2020 : x.ANO_PROVA = 2020 := by simpa using hc
    rcases List.mem_cons.mp hx with hxb | hxr
    · rw [hxb] at hx2020
      rw [hx2020] at hb21
      exact absurd hb21 (by decide)
    · have hle : b.ANO_PROVA < x.ANO_PROVA ∨
          (b.ANO_PROVA = x.ANO_PROVA ∧ b.NU_PARAM_B ≤ x.NU_PARAM_B) := hrest x hxr
      rcases hle with h1 | h1
      · rw [hb21, hx2020] at h1
        omega
      · obtain ⟨h1a, h1b⟩ := h1
        rw [hb21, hx2020] at h1a
        omega
  rw [List.countP_append, hz] at hcount2
  have hcps : s.countP (fun r => r.ANO_PROVA == 2020) ≤ s.length :=
    List.countP_le_length (fun r : Row => r.ANO_PROVA == 2020)
  have hl2 := congrArg List.length hst
  rw [List.length_take, List.length_append, List.length_cons] at hl2
  have hmink : min k (List.insertionSort anoDifLE (l20 ++ l21)).length ≤ k :=
    Nat.min_le_left _ _
  omega

/-- C1 (amended): in the two-year scenario — every row's year is 2020 or
2021, MT rows carry the year's regular MT exam code (587 for 2020, 899 for
2021), and each year holds exactly 50 MT rows — the run with years
{2020, 2021}, subject MT and quantity cap 10 returns exactly 10 questions
numbered sequentially 1..10; but the 10 selected rows are the 10 smallest
MT rows under the (year, difficulty) cap order — in particular all of them
come from 2020 — not the 10 lowest-difficulty MT rows across both years
combined. -/
theorem C1_spec (cons : List Row)
    (hyears : ∀ r ∈ cons, r.ANO_PROVA = 2020 ∨ r.ANO_PROVA = 2021)
    (hcode20 : ∀ r ∈ cons, r.ANO_PROVA = 2020 → r.SG_AREA = "MT" → r.CO_PROVA = 587)
    (hcode21 : ∀ r ∈ cons, r.ANO_PROVA = 2021 → r.SG_AREA = "MT" → r.CO_PROVA = 899)
    (hcount20 : (cons.filter (fun r => r.SG_AREA == "MT" && r.ANO_PROVA == 2020)).length = 50)
    (hcount21 : (cons.filter (fun r => r.SG_AREA == "MT" && r.ANO_PROVA == 2021)).length = 50) :
    ∃ res ws, carregarQuestoes cons ["2020", "2021"] ["MT"] filtrosC1 = .ok (res, ws) ∧
      res.length = 10 ∧
      res.map Prod.fst = List.range' 1 10 ∧
      (∀ p ∈ res, p.2.ANO_PROVA = 2020) ∧
      ∃ rest, List.Perm (res.map Prod.snd ++ rest)
          (cons.filter (fun r => r.SG_AREA == "MT")) ∧
        ∀ a ∈ res.map Prod.snd, ∀ b ∈ rest, anoDifLE a b := by
  have hconsne : cons ≠ [] := by
    intro h
    rw [h] at hcount20
    simp at hcount20
  set mt20 := cons.filter (fun r => r.SG_AREA == "MT" && r.ANO_PROVA == 2020) with hmt20
  set mt21 := cons.filter (fun r => r.SG_AREA == "MT" && r.ANO_PROVA == 2021) with hmt21
  have hob20 : obterProvasEscolhidas (toString (2020 : Nat)) ["MT"] =
      ([("MT", 587)], []) := by decide
  have hob21 : obterProvasEscolhidas (toString (2021 : Nat)) ["MT"] =
      ([("MT", 899)], []) := by decide
  have hap20 : aplicarFiltros (cons.filter (fun r => r.ANO_PROVA == (2020 : Nat)))
      (toString (2020 : Nat)) ["MT"] filtrosC1 =
      .ok (List.insertionSort difLE mt20, []) := by
    rw [aplicarFiltros_eval (cons.filter (fun r => r.ANO_PROVA == (2020 : Nat)))
      (toString (2020 : Nat)) 587 filtrosC1 hob20 rfl rfl rfl rfl rfl]
    rw [base_eq_mtYear 2020 587 hcode20, hmt20]
  have hap21 : aplicarFiltros (cons.filter (fun r => r.ANO_PROVA == (2021 : Nat)))
      (toString (2021 : Nat)) ["MT"] filtrosC1 =
      .ok (List.insertionSort difLE mt21, []) := by
    rw [aplicarFiltros_eval (cons.filter (fun r => r.ANO_PROVA == (2021 : Nat)))
      (toString (2021 : Nat)) 899 filtrosC1 hob21 rfl rfl rfl rfl rfl]
    rw [base_eq_mtYear 2021 899 hcode21, hmt21]
  have hs20len : (List.insertionSort difLE mt20).length = 50 := by
    rw [List.length_insertionSort]
    exact hcount20
  have hs21len : (List.insertionSort difLE mt21).length = 50 := by
    rw [List.length_insertionSort]
    exact hcount21
  have hs20ne : List.insertionSort difLE mt20 ≠ [] := by
    intro h
    rw [h] at hs20len
    simp at hs20len
  have hs21ne : List.insertionSort difLE mt21 ≠ [] := by
    intro h
    rw [h] at hs21len
    simp at hs21len
  have hloop : processarAnosLoop cons ["MT"] filtrosC1 [2020, 2021] =
      .ok ([List.insertionSort difLE mt20, List.insertionSort difLE mt21], []) := by
    rw [processarAnosLoop, hap20]
    dsimp only
    rw [processarAnosLoop, hap21]
    dsimp only
    rw [processarAnosLoop]
    dsimp only
    rw [if_neg hs21ne, if_neg hs20ne]
    rfl
  have hpa : parseAnos ["2020", "2021"] = some [2020, 2021] := by decide
  have hdfA : cons.filter (fun r => decide (r.ANO_PROVA ∈ ([2020, 2021] : List Nat))) =
      cons := by
    rw [List.filter_eq_self]
    intro r hr
    rcases hyears r hr with h | h <;> simp [h]
  have hcombne : List.insertionSort difLE mt20 ++ List.insertionSort difLE mt21 ≠ [] := by
    intro h
    rcases List.append_eq_nil.mp h with ⟨h1, _⟩
    exact hs20ne h1
  have hcomblen :
      (List.insertionSort difLE mt20 ++ List.insertionSort difLE mt21).length = 100 := by
    rw [List.length_append, hs20len, hs21len]
  have hglob : aplicarFiltrosGlobais
      (List.insertionSort difLE mt20 ++ List.insertionSort difLE mt21) filtrosC1 =
      (List.insertionSort anoDifLE
        (List.insertionSort difLE mt20 ++ List.insertionSort difLE mt21)).take 10 := by
    simp only [aplicarFiltrosGlobais]
    rw [if_neg hcombne]
    rw [show filtrosC1.filtrarQuantidade = true from rfl,
      show truthyNat filtrosC1.quantidade = true from rfl]
    simp only [Bool.and_self, if_true]
    rw [show filtrosC1.quantidade = some (10 : Nat) from rfl]
    simp only [Option.getD_some]
    rw [if_pos (by rw [hcomblen]; omega :
      (10 : Nat) < (List.insertionSort difLE mt20 ++ List.insertionSort difLE mt21).length)]
    rw [show truthyStr filtrosC1.posicoes = false from rfl]
    simp only [Bool.false_eq_true, if_false]
  have hrun : carregarQuestoes cons ["2020", "2021"] ["MT"] filtrosC1 =
      .ok (numerar ((List.insertionSort anoDifLE
        (List.insertionSort difLE mt20 ++ List.insertionSort difLE mt21)).take 10), []) := by
    simp only [carregarQuestoes]
    rw [if_neg hconsne, hpa]
    dsimp only
    rw [hdfA, if_neg hconsne, hloop]
    dsimp only
    rw [if_neg (List.cons_ne_nil _ _)]
    have hfl : ([List.insertionSort difLE mt20, List.insertionSort difLE mt21] :
        List (List Row)).flatten =
        List.insertionSort difLE mt20 ++ List.insertionSort difLE mt21 := by
      simp
    rw [hfl, hglob]
  obtain ⟨rest, hperm, hord⟩ := take_insertionSort_smallest anoDifLE
    (List.insertionSort difLE mt20 ++ List.insertionSort difLE mt21) 10
  have htklen : ((List.insertionSort anoDifLE
      (List.insertionSort difLE mt20 ++ List.insertionSort difLE mt21)).take 10).length =
      10 := by
    rw [List.length_take, List.length_insertionSort, hcomblen]
    decide
  refine ⟨numerar ((List.insertionSort anoDifLE
      (List.insertionSort difLE mt20 ++ List.insertionSort difLE mt21)).take 10), [],
    hrun, ?_, ?_, ?_, rest, ?_, ?_⟩
  · rw [numerar_length]
    exact htklen
  · rw [numerar_map_fst, htklen]
  · intro p hp
    have hmem := numerar_snd_mem hp
    have h20s : ∀ r ∈ List.insertionSort difLE mt20, r.ANO_PROVA = 2020 := by
      intro r hr
      have hr2 : r ∈ mt20 := (List.perm_insertionSort difLE mt20).mem_iff.mp hr
      rw [hmt20] at hr2
      have hfs := List.of_mem_filter hr2
      rw [Bool.and_eq_true] at hfs
      simpa using hfs.2
    have h21s : ∀ r ∈ List.insertionSort difLE mt21, r.ANO_PROVA = 2021 := by
      intro r hr
      have hr2 : r ∈ mt21 := (List.perm_insertionSort difLE mt21).mem_iff.mp hr
      rw [hmt21] at hr2
      have hfs := List.of_mem_filter hr2
      rw [Bool.and_eq_true] at hfs
      simpa using hfs.2
    exact all_year_2020_take h20s h21s
      (by rw [hs20len]; omega : 10 ≤ (List.insertionSort difLE mt20).length) p.2 hmem
  · rw [numerar_map_snd]
    refine hperm.trans ?_
    refine (List.Perm.append (List.perm_insertionSort difLE mt20)
      (List.perm_insertionSort difLE mt21)).trans ?_
    have hbase := List.filter_append_perm (fun r => r.ANO_PROVA == (2020 : Nat))
      (cons.filter (fun r => r.SG_AREA == "MT"))
    have e1 : (cons.filter (fun r => r.SG_AREA == "MT")).filter
        (fun r => r.ANO_PROVA == (2020 : Nat)) = mt20 := by
      rw [hmt20, List.filter_filter]
      apply List.filter_congr
      intro r _
      exact Bool.and_comm _ _
    have e2 : (cons.filter (fun r => r.SG_AREA == "MT")).filter
        (fun r => !(r.ANO_PROVA == (2020 : Nat))) = mt21 := by
      rw [hmt21, List.filter_filter]
      apply List.filter_congr
      intro r hr
      by_cases hsg : r.SG_AREA = "MT"
      · rcases hyears r hr with h | h
        · simp [hsg, h]
        · simp [hsg, h]
      · have h1 : (r.SG_AREA == "MT") = false := beq_eq_false_iff_ne.mpr hsg
        simp [h1]
    rw [← e1, ← e2]
    exact hbase
  · rw [numerar_map_snd]
    exact hord

/-- C1 counterexample: on the concrete two-year table `tabelaC1` — which
matches the claim's scenario — the run returns 10 questions numbered 1..10
whose difficulties are all at least 1000, while a year-2021 MT row of
difficulty 0 sits in the table and is left out: the result is not the 10
lowest-difficulty MT rows across both years combined. -/
theorem C1_counterexample :
    carregarQuestoes tabelaC1 ["2020", "2021"] ["MT"] filtrosC1 = .ok (resC1, []) ∧
    resC1.length = 10 ∧
    resC1.map Prod.fst = List.range' 1 10 ∧
    (∀ p ∈ resC1, (1000 : ℚ) ≤ p.2.NU_PARAM_B) ∧
    (⟨2021, "MT", 899, 1, some 1, 0, "A"⟩ : Row) ∈ tabelaC1 ∧
    (⟨2021, "MT", 899, 1, some 1, 0, "A"⟩ : Row).SG_AREA = "MT" ∧
    ((⟨2021, "MT", 899, 1, some 1, 0, "A"⟩ : Row).NU_PARAM_B < (1000 : ℚ)) :=
  ⟨rfl, by decide, by decide, by decide, by decide, rfl, by decide⟩

/-- C1 witness at the concrete table of the counterexample. -/
theorem C1_spec_witness :
    ((∀ r ∈ tabelaC1, r.ANO_PROVA = 2020 ∨ r.ANO_PROVA = 2021) ∧
     (∀ r ∈ tabelaC1, r.ANO_PROVA = 2020 → r.SG_AREA = "MT" → r.CO_PROVA = 587) ∧
     (∀ r ∈ tabelaC1, r.ANO_PROVA = 2021 → r.SG_AREA = "MT" → r.CO_PROVA = 899) ∧
     (tabelaC1.filter (fun r => r.SG_AREA == "MT" && r.ANO_PROVA == 2020)).length = 50 ∧
     (tabelaC1.filter (fun r => r.SG_AREA == "MT" && r.ANO_PROVA == 2021)).length = 50) ∧
    (∃ res ws, carregarQuestoes tabelaC1 ["2020", "2021"] ["MT"] filtrosC1 =
        .ok (res, ws) ∧
      res.length = 10 ∧
      res.map Prod.fst = List.range' 1 10 ∧
      (∀ p ∈ res, p.2.ANO_PROVA = 2020) ∧
      ∃ rest, List.Perm (res.map Prod.snd ++ rest)
          (tabelaC1.filter (fun r => r.SG_AREA == "MT")) ∧
        ∀ a ∈ res.map Prod.snd, ∀ b ∈ rest, anoDifLE a b) :=
  ⟨⟨by decide, by decide, by decide, by decide, by decide⟩,
   C1_spec tabelaC1 (by decide) (by decide) (by decide) (by decide) (by decide)⟩

end ENEM
